import Mathlib

/-!
Verification of the spec-IR generation pipeline (proof of concept web app).

This file gives a shallow embedding, in Lean 4, of the core components of
the repository:

* the reviewer-response classifier (`parseReviewResult`) and the output
  normalizer (`cleanSpecContent`) from `llm/prompts/reviewer-prompts.ts`
  and `agents/base-agent.ts`,
* the feedback-cycle engine (`BaseAgent.generateWithFeedbackCycle`) and the
  per-stage artifact loop (`BaseAgent.execute`),
* the pipeline driver (`Pipeline.execute`) with the fixed agent order and
  per-agent output lists from `types/spec.types.ts`,
* the backoff computation and retry loop of the two provider gateways
  (`llm/rate-limiter.ts`, `llm/anthropic.ts`, `llm/openai.ts`),
* the checkpoint store (`utils/storage.ts`).

Conventions of the embedding:

* JavaScript strings are Lean `String`s; where the source manipulates a
  string by index or by regular expression, the model works on the
  underlying `List Char` so that every step is a plain recursive function.
  `String.prototype.trim` is modelled with `Char.isWhitespace` (space, tab,
  carriage return, newline), which agrees with JavaScript on all inputs
  used here.
* Network calls are replaced by oracles: a function from the attempt (or
  cycle) number to the response the provider would give.  A call that
  throws is an oracle returning `none`.  Quantifying over oracles covers
  every possible interaction trace of the real code.
* Effects that matter to the specification (which artifact is generated,
  how often, which delays are slept) are returned as an explicit trace.
* JavaScript `number`s that the code treats as integers are `Int` (or
  `Nat` where the source guarantees non-negativity); the backoff
  arithmetic, which is genuinely fractional, is modelled over `ℚ`.
-/

namespace SpecPoC


/-! ## Data model: `types/spec.types.ts` -/

/-- The twelve artifact type tags (`IRType` in `types/spec.types.ts`). -/
inductive IRType where
  | contract | module | infrastructure | data | decisions | tasks
  | types | interface | function | events | tests | pipeline
  deriving DecidableEq, Repr

/-- The six agent kinds (`AgentType` in `types/spec.types.ts`). -/
inductive AgentType where
  | product | architect | scrum | developer | tester | devops
  deriving DecidableEq, Repr

/-- The string tag of an `IRType`, as it appears in template literals. -/
def irTypeName : IRType → String
  | .contract => "contract"
  | .module => "module"
  | .infrastructure => "infrastructure"
  | .data => "data"
  | .decisions => "decisions"
  | .tasks => "tasks"
  | .types => "types"
  | .interface => "interface"
  | .function => "function"
  | .events => "events"
  | .tests => "tests"
  | .pipeline => "pipeline"

/-- `AGENT_ORDER` from `types/spec.types.ts`: the fixed stage order. -/
def AGENT_ORDER : List AgentType :=
  [.product, .architect, .scrum, .developer, .tester, .devops]

/-- `AGENT_OUTPUTS` from `types/spec.types.ts`.  The per-agent subclasses
(`ProductAgent`, ..., `DevOpsAgent`) return exactly these lists from
`getOutputIRTypes`. -/
def AGENT_OUTPUTS : AgentType → List IRType
  | .product => [.contract]
  | .architect => [.module, .infrastructure, .data, .decisions]
  | .scrum => [.tasks]
  | .developer => [.types, .events, .interface, .function]
  | .tester => [.tests]
  | .devops => [.pipeline]

/-- `getIRTypeFileName` from `types/spec.types.ts` (the `componentName`
branch models the JavaScript truthiness test: an absent or empty component
name falls back to the type tag). -/
def getIRTypeFileName (irType : IRType) (componentName : Option String) : String :=
  if irType = .interface ∨ irType = .function then
    match componentName with
    | some s => if s = "" then irTypeName irType ++ ".spec" else s ++ ".spec"
    | none => irTypeName irType ++ ".spec"
  else irTypeName irType ++ ".spec"

/-- `getIRTypeFilePath` from `types/spec.types.ts`. -/
def getIRTypeFilePath (irType : IRType) (componentName : Option String) : String :=
  if irType = .interface then "interfaces/" ++ getIRTypeFileName irType componentName
  else if irType = .function then "functions/" ++ getIRTypeFileName irType componentName
  else getIRTypeFileName irType componentName

/-! ## Character-list string helpers

The source uses `trim`, `startsWith`, `endsWith`, one-shot `replace` and
anchored regular expressions.  These are modelled on `List Char`. -/

/-- JavaScript `String.prototype.trim`, leading side. -/
def trimLeftChars (l : List Char) : List Char := l.dropWhile Char.isWhitespace

/-- JavaScript `String.prototype.trim` on a character list. -/
def trimChars (l : List Char) : List Char :=
  (trimLeftChars (trimLeftChars l).reverse).reverse

/-- Drop `n` characters from the right end of a list. -/
def dropRightChars (l : List Char) (n : Nat) : List Char := (l.reverse.drop n).reverse

/-- JavaScript `String.prototype.replace` with a plain-string pattern
(non-empty) and empty replacement: remove the first occurrence of `pat`,
or return the list unchanged when `pat` does not occur. -/
def removeFirst (pat : List Char) : List Char → List Char
  | [] => []
  | c :: cs =>
    if pat.isPrefixOf (c :: cs) then (c :: cs).drop pat.length
    else c :: removeFirst pat cs

/-! ## Reviewer-response classifier: `parseReviewResult`
(`llm/prompts/reviewer-prompts.ts`, lines 80-109) -/

/-- The result record of `parseReviewResult`. -/
structure ReviewResult where
  approved : Bool
  feedback : String
  deriving DecidableEq, Repr

/-- Fallback feedback when `NEEDS_REVISION` carries no trailing text
(`reviewer-prompts.ts` line 100). -/
def noSpecificFeedbackMsg : String :=
  "Reviewer requested changes but did not provide specific feedback."

/-- Fallback feedback when the whole (trimmed) reviewer response is empty
(`reviewer-prompts.ts` line 107). -/
def unparseableMsg : String := "Unable to parse reviewer response."

/-- Core of `parseReviewResult`, applied to the trimmed character list. -/
def parseReviewResultChars (t : List Char) : ReviewResult :=
  if "APPROVED".data.isPrefixOf t then
    { approved := true, feedback := "" }
  else if "NEEDS_REVISION".data.isPrefixOf t then
    let feedback := trimChars (removeFirst "NEEDS_REVISION".data t)
    { approved := false
      feedback := if feedback.isEmpty then noSpecificFeedbackMsg else String.mk feedback }
  else
    { approved := false
      feedback := if t.isEmpty then unparseableMsg else String.mk t }

/-- `parseReviewResult` from `llm/prompts/reviewer-prompts.ts`. -/
def parseReviewResult (response : String) : ReviewResult :=
  parseReviewResultChars (trimChars response.data)

/-! ## Output normalizer: `BaseAgent.cleanSpecContent`
(`agents/base-agent.ts`, lines 173-190) -/

/-- JavaScript regex `\w`: letters, digits and underscore. -/
def isWordChar (c : Char) : Bool := c.isAlphanum || c = '_'

/-- Strip one optional leading newline (the `\n?` of the opening-fence
regexes). -/
def dropLeadingNewline : List Char → List Char
  | '\n' :: t => t
  | l => l

/-- Strip one optional trailing newline (the `\n?` of the closing-fence
regex `\n?` + three backticks + `$`). -/
def dropTrailingNewline (l : List Char) : List Char :=
  if l.reverse.head? = some '\n' then dropRightChars l 1 else l

/-- The backquote character (code point 96). -/
def backquoteChar : Char := Char.ofNat 96

/-- The three-character code-fence marker. -/
def fenceChars : List Char := [backquoteChar, backquoteChar, backquoteChar]

/-- The opening fence with the `spec` language tag. -/
def fenceSpecChars : List Char := fenceChars ++ "spec".data

/-- `BaseAgent.cleanSpecContent` on a character list: trim, strip a leading
code fence (with optional language word), strip a trailing fence, trim. -/
def cleanSpecContentChars (content : List Char) : List Char :=
  let cleaned := trimChars content
  let cleaned :=
    if fenceSpecChars.isPrefixOf cleaned then
      dropLeadingNewline (cleaned.drop 7)
    else if fenceChars.isPrefixOf cleaned then
      dropLeadingNewline ((cleaned.drop 3).dropWhile isWordChar)
    else cleaned
  let cleaned :=
    if fenceChars.reverse.isPrefixOf cleaned.reverse then
      dropTrailingNewline (dropRightChars cleaned 3)
    else cleaned
  trimChars cleaned

/-- `BaseAgent.cleanSpecContent` from `agents/base-agent.ts`. -/
def cleanSpecContent (content : String) : String :=
  String.mk (cleanSpecContentChars content.data)

/-! ## Backoff and retry classification: `llm/rate-limiter.ts` -/

/-- Does a character sequence occur inside another
(JavaScript `String.prototype.includes`)? -/
def containsSeq (pat : List Char) : List Char → Bool
  | [] => pat.isEmpty
  | c :: cs => pat.isPrefixOf (c :: cs) || containsSeq pat cs

/-- `isRateLimitError` from `llm/rate-limiter.ts` lines 70-89: HTTP 429,
the overload status 529, or a rate-limit phrase in the (lower-cased) error
message. -/
def isRateLimitError (status : Nat) (errorMessage : Option String) : Bool :=
  if status = 429 then true
  else if status = 529 then true
  else
    match errorMessage with
    | some msg =>
      let lower := msg.data.map Char.toLower
      containsSeq "rate limit".data lower || containsSeq "rate_limit".data lower ||
      containsSeq "too many requests".data lower || containsSeq "overloaded".data lower
    | none => false

/-- The exponential branch of `calculateBackoffDelay`
(`llm/rate-limiter.ts` lines 105-111): `baseDelay * 2 ^ (attempt - 1)`
plus jitter, capped at `maxDelayMs`.  `jitterUnit` stands for the value
of `Math.random() * 2 - 1`, so it ranges over `[-1, 1)`; the `0.2` jitter
factor is the exact rational `1/5`. -/
def exponentialBackoffDelay (attempt : Nat) (baseDelayMs maxDelayMs jitterUnit : ℚ) : ℚ :=
  let exponentialDelay := baseDelayMs * 2 ^ (attempt - 1)
  let jitter := exponentialDelay * (1 / 5) * jitterUnit
  min (exponentialDelay + jitter) maxDelayMs

/-- `calculateBackoffDelay` from `llm/rate-limiter.ts` lines 94-112.  The
guard `retryAfterMs && retryAfterMs > 0` is truthiness plus the comparison:
an absent or non-positive hint falls through to exponential backoff. -/
def calculateBackoffDelay (attempt : Nat) (baseDelayMs maxDelayMs jitterUnit : ℚ)
    (retryAfterMs : Option ℚ) : ℚ :=
  match retryAfterMs with
  | some r =>
    if 0 < r then min (r + 500) maxDelayMs
    else exponentialBackoffDelay attempt baseDelayMs maxDelayMs jitterUnit
  | none => exponentialBackoffDelay attempt baseDelayMs maxDelayMs jitterUnit

/-- The retry configuration shared by `llm/anthropic.ts` and
`llm/openai.ts` (`RATE_LIMIT_CONFIG`): 5 attempts, 2 s base delay,
2 min maximum delay. -/
structure GatewayRetryConfig where
  maxRetries : Nat
  baseDelayMs : ℚ
  maxDelayMs : ℚ

/-- `RATE_LIMIT_CONFIG` from `llm/anthropic.ts` lines 12-16 (the copy in
`llm/openai.ts` lines 12-16 is identical). -/
def RATE_LIMIT_CONFIG : GatewayRetryConfig :=
  { maxRetries := 5, baseDelayMs := 2000, maxDelayMs := 120000 }

/-! ## Provider gateways: `llm/anthropic.ts` and `llm/openai.ts`

`callAnthropic` and `callOpenAI` run the same `for (attempt = 1; attempt
<= maxRetries; attempt++)` loop around `fetch`.  The network is an oracle
from the attempt number to the response; `none` models a rejected `fetch`
promise (a transport failure), which the source does not catch — it has no
try/catch around `fetch`, so the exception propagates out of the loop. -/

/-- What one provider response contributes to the retry logic: the HTTP
status, the `retry-after` header (seconds) read by
`parseRateLimitHeaders`, the `"N seconds"` figure the code extracts from
the error body (if the regex matches), the error message
(`errorData.error?.message || response.statusText`), and the successful
content. -/
structure ProviderResponse where
  status : Nat
  retryAfterHeaderSecs : Option Nat
  bodyRetrySecs : Option Nat
  errorMessage : String
  content : String
  deriving DecidableEq, Repr

/-- The terminal outcomes of a gateway call, one constructor per source
exit point: a successful return; the `rate limit exceeded after N
attempts` throw; the `API error: status - message` throw (both the
auth branch and the final fallthrough use this same message shape); an
uncaught `fetch` rejection; and the dead `Max retries exceeded` throw
after the loop. -/
inductive CallOutcome where
  | success (content : String)
  | rateLimitExhausted (provider : String) (attempts : Nat)
  | apiError (provider : String) (status : Nat) (message : String)
  | fetchFailed (attempt : Nat)
  | retriesFallthrough (provider : String)
  deriving DecidableEq, Repr

/-- The human-readable message of each thrown error, as the source
formats it. -/
def CallOutcome.message : CallOutcome → String
  | .success _ => ""
  | .rateLimitExhausted p a =>
    p ++ " rate limit exceeded after " ++ toString a ++ " attempts. Please wait and try again."
  | .apiError p s m => p ++ " API error: " ++ toString s ++ " - " ++ m
  | .fetchFailed _ => "TypeError: Failed to fetch"
  | .retriesFallthrough p => "Max retries exceeded for " ++ p ++ " API call"

/-- Does an error message name the given attempt count, in the wording the
gateway uses? -/
def mentionsAttemptCount (msg : String) (n : Nat) : Bool :=
  containsSeq ("after " ++ toString n ++ " attempts").data msg.data

/-- The retry loop shared by `callAnthropic` (lines 41-144) and
`callOpenAI` (lines 39-140): at each attempt, fetch; on a rate-limit
status (429/529) compute the retry-after hint (body figure overriding the
header, defaulting to 0) and back off, or throw once the ceiling is
reached; on a non-ok status throw immediately for 401/403, back off for
5xx below the ceiling, and throw otherwise; on an ok status return the
content.  Returns the outcome, the number of fetches issued, and the list
of slept delays. -/
def gatewayCallLoop (provider : String) (resp : Nat → Option ProviderResponse)
    (jitter : Nat → ℚ) : Nat → Nat → Nat → List ℚ → CallOutcome × Nat × List ℚ
  | _attempt, 0, made, sleeps => (.retriesFallthrough provider, made, sleeps)
  | attempt, fuel + 1, made, sleeps =>
    match resp attempt with
    | none => (.fetchFailed attempt, made + 1, sleeps)
    | some r =>
      if isRateLimitError r.status none then
        let headerMs : Nat := match r.retryAfterHeaderSecs with
          | some s => s * 1000
          | none => 0
        let retryAfterMs : Nat := match r.bodyRetrySecs with
          | some s => s * 1000
          | none => headerMs
        if attempt < RATE_LIMIT_CONFIG.maxRetries then
          let d := calculateBackoffDelay attempt RATE_LIMIT_CONFIG.baseDelayMs
            RATE_LIMIT_CONFIG.maxDelayMs (jitter attempt) (some (retryAfterMs : ℚ))
          gatewayCallLoop provider resp jitter (attempt + 1) fuel (made + 1) (sleeps ++ [d])
        else (.rateLimitExhausted provider attempt, made + 1, sleeps)
      else if ¬(200 ≤ r.status ∧ r.status < 300) then
        if r.status = 401 ∨ r.status = 403 then
          (.apiError provider r.status r.errorMessage, made + 1, sleeps)
        else if 500 ≤ r.status ∧ attempt < RATE_LIMIT_CONFIG.maxRetries then
          let d := calculateBackoffDelay attempt RATE_LIMIT_CONFIG.baseDelayMs
            RATE_LIMIT_CONFIG.maxDelayMs (jitter attempt) none
          gatewayCallLoop provider resp jitter (attempt + 1) fuel (made + 1) (sleeps ++ [d])
        else (.apiError provider r.status r.errorMessage, made + 1, sleeps)
      else (.success r.content, made + 1, sleeps)

/-- `callAnthropic` from `llm/anthropic.ts` (retry behavior). -/
def callAnthropic (resp : Nat → Option ProviderResponse) (jitter : Nat → ℚ) :
    CallOutcome × Nat × List ℚ :=
  gatewayCallLoop "Anthropic" resp jitter 1 RATE_LIMIT_CONFIG.maxRetries 0 []

/-- `callOpenAI` from `llm/openai.ts` (retry behavior). -/
def callOpenAI (resp : Nat → Option ProviderResponse) (jitter : Nat → ℚ) :
    CallOutcome × Nat × List ℚ :=
  gatewayCallLoop "OpenAI" resp jitter 1 RATE_LIMIT_CONFIG.maxRetries 0 []

/-! ## Feedback-cycle engine: `BaseAgent` (`agents/base-agent.ts`)

The two model calls per cycle go through `LLMClient.generate`; the model
replaces them by two oracles: `gen c` is the raw executor output of cycle
`c`, `rev c` the raw reviewer output of cycle `c`, and `now c` the clock
(`new Date()`) at cycle `c`.  Each loop iteration emits a generate event
followed by a review event into an explicit trace. -/

/-- `SpecArtifact` from `types/spec.types.ts` (`createdAt` is a
millisecond timestamp). -/
structure SpecArtifact where
  irType : IRType
  fileName : String
  filePath : String
  content : String
  version : String
  createdBy : AgentType
  createdAt : Nat
  deriving DecidableEq, Repr

/-- `FeedbackEntry` from `types/agent.types.ts`. -/
structure FeedbackEntry where
  cycle : Nat
  artifactType : IRType
  reviewerFeedback : String
  executorResponse : String
  timestamp : Nat
  deriving DecidableEq, Repr

/-- `FeedbackCycleResult` from `types/agent.types.ts`.  The TypeScript
field `artifact` is declared non-nullable, but the `artifact!` assertion
at the end of `generateWithFeedbackCycle` can smuggle `null` through when
the loop body never ran, so the model gives it type `Option`. -/
structure FeedbackCycleResult where
  artifact : Option SpecArtifact
  cyclesUsed : Int
  approved : Bool
  feedbackHistory : List FeedbackEntry
  deriving DecidableEq, Repr

/-- One model call issued by the engine, recorded in the trace. -/
inductive CallEvent where
  | generateCall (irType : IRType) (cycle : Nat)
  | reviewCall (irType : IRType) (cycle : Nat)
  deriving DecidableEq, Repr

/-- The artifact record built at lines 110-118 of `agents/base-agent.ts`
for a given (already normalized) content. -/
def mkCycleArtifact (agentType : AgentType) (irType : IRType) (content : String)
    (time : Nat) : SpecArtifact :=
  { irType := irType
    fileName := irTypeName irType ++ ".spec.ir"
    filePath := getIRTypeFilePath irType none
    content := content
    version := "1.0.0"
    createdBy := agentType
    createdAt := time }

/-- The `for (let cycle = 1; cycle <= this.maxFeedbackCycles; cycle++)`
loop of `generateWithFeedbackCycle` (lines 88-160): generate, normalize,
build the artifact, review, and either return approved or push a feedback
entry and continue; falling off the loop returns the last artifact (the
`artifact!` assertion) with `approved: false` and
`cyclesUsed: maxFeedbackCycles`.  `fuel` is the number of remaining
iterations, so the top-level call uses `maxCycles.toNat`. -/
def cycleLoop (agentType : AgentType) (irType : IRType) (gen rev : Nat → String)
    (now : Nat → Nat) (maxCycles : Int) :
    Nat → Nat → Option SpecArtifact → List FeedbackEntry → List CallEvent →
    FeedbackCycleResult × List CallEvent
  | _cycle, 0, art, hist, tr => (⟨art, maxCycles, false, hist⟩, tr)
  | cycle, fuel + 1, _art, hist, tr =>
    let content := cleanSpecContent (gen cycle)
    let artifact := mkCycleArtifact agentType irType content (now cycle)
    let reviewResult := parseReviewResult (rev cycle)
    let tr2 := tr ++ [.generateCall irType cycle, .reviewCall irType cycle]
    if reviewResult.approved then
      (⟨some artifact, (cycle : Int), true, hist⟩, tr2)
    else
      cycleLoop agentType irType gen rev now maxCycles (cycle + 1) fuel (some artifact)
        (hist ++ [⟨cycle, irType, reviewResult.feedback, content, now cycle⟩]) tr2

/-- `BaseAgent.generateWithFeedbackCycle` from `agents/base-agent.ts`
(result plus the trace of model calls it issued). -/
def generateWithFeedbackCycle (agentType : AgentType) (irType : IRType)
    (gen rev : Nat → String) (now : Nat → Nat) (maxCycles : Int) :
    FeedbackCycleResult × List CallEvent :=
  cycleLoop agentType irType gen rev now maxCycles 1 maxCycles.toNat none [] []

/-- Is this event a generate call? -/
def CallEvent.isGenerate : CallEvent → Bool
  | .generateCall _ _ => true
  | .reviewCall _ _ => false

/-- Is this event a review call? -/
def CallEvent.isReview : CallEvent → Bool
  | .generateCall _ _ => false
  | .reviewCall _ _ => true

/-- Number of generate calls in a trace. -/
def genCount (tr : List CallEvent) : Nat := (tr.filter CallEvent.isGenerate).length

/-- Number of review calls in a trace. -/
def revCount (tr : List CallEvent) : Nat := (tr.filter CallEvent.isReview).length

/-- The artifact types targeted by the generate calls of a trace, in
order. -/
def genTargets (tr : List CallEvent) : List IRType :=
  tr.filterMap fun e =>
    match e with
    | .generateCall t _ => some t
    | .reviewCall _ _ => none

/-- The generate/review event pairs of `f` consecutive cycles starting at
cycle `c`. -/
def cyclePairs (irType : IRType) : Nat → Nat → List CallEvent
  | _, 0 => []
  | c, f + 1 =>
    [.generateCall irType c, .reviewCall irType c] ++ cyclePairs irType (c + 1) f

/-! ## Stage executor and pipeline driver
(`agents/base-agent.ts` `execute`, `orchestration/pipeline.ts` `execute`)

Oracles become per-artifact-type: `gen t c` is the raw executor output of
cycle `c` for artifact type `t`, likewise `rev` and `now`. -/

/-- `AgentContext` from `types/agent.types.ts`; the `previousArtifacts`
`Map` is an insertion-ordered association list.  Its values take the
runtime (nullable) artifact type because both `BaseAgent.execute` and
`Pipeline.execute` store `result.artifact` in it unchecked. -/
structure AgentContext where
  sessionId : String
  moduleName : String
  userPrompt : String
  previousArtifacts : List (IRType × Option SpecArtifact)
  feedbackHistory : List FeedbackEntry
  deriving DecidableEq, Repr

/-- `AgentResult` from `types/agent.types.ts` (artifact entries keep the
runtime nullable type, see `FeedbackCycleResult`). -/
structure AgentResult where
  artifacts : List (Option SpecArtifact)
  success : Bool
  error : Option String
  deriving DecidableEq, Repr

/-- JavaScript `Map.set` on an insertion-ordered association list: update
in place when the key exists, append otherwise. -/
def mapSet {α β : Type} [DecidableEq α] (l : List (α × β)) (k : α) (v : β) : List (α × β) :=
  if l.any (fun p => p.1 = k) then l.map (fun p => if p.1 = k then (k, v) else p)
  else l ++ [(k, v)]

/-- The `for (const irType of irTypes)` loop of `BaseAgent.execute`
(lines 55-66): run the feedback cycle for each declared output type,
push the resulting artifact, and add it to `context.previousArtifacts`
for the subsequent artifacts of the same stage.  The model's oracles
never throw, so the `catch` branch (lines 72-78) is unreachable and the
result is always `success: true`. -/
def agentLoop (gen rev : IRType → Nat → String) (now : Nat → Nat) (maxCycles : Int)
    (agentType : AgentType) :
    List IRType → List (Option SpecArtifact) → AgentContext → List CallEvent →
    AgentResult × AgentContext × List CallEvent
  | [], arts, ctx, tr => (⟨arts, true, none⟩, ctx, tr)
  | t :: rest, arts, ctx, tr =>
    let r := generateWithFeedbackCycle agentType t (gen t) (rev t) now maxCycles
    agentLoop gen rev now maxCycles agentType rest (arts ++ [r.1.artifact])
      { ctx with previousArtifacts := mapSet ctx.previousArtifacts t r.1.artifact }
      (tr ++ r.2)

/-- `BaseAgent.execute` from `agents/base-agent.ts`: the declared output
types are `getOutputIRTypes()`, which every agent subclass implements as
the `AGENT_OUTPUTS` entry for its agent type. -/
def agentExecute (gen rev : IRType → Nat → String) (now : Nat → Nat) (maxCycles : Int)
    (agentType : AgentType) (ctx : AgentContext) :
    AgentResult × AgentContext × List CallEvent :=
  agentLoop gen rev now maxCycles agentType (AGENT_OUTPUTS agentType) [] ctx []

/-- `PipelineResult` from `orchestration/pipeline.ts`. -/
structure PipelineResult where
  success : Bool
  artifacts : List (Option SpecArtifact)
  error : Option String
  deriving DecidableEq, Repr

/-- Lines 104-107 of `Pipeline.execute`: push each stage artifact into
`allArtifacts` and set it in `previousArtifacts` under `artifact.irType`.
A null artifact is pushed first and then crashes the member access
`artifact.irType` (the `Bool` component is `false`), which the
surrounding `try` turns into a failed pipeline run. -/
def pushArtifacts :
    List (Option SpecArtifact) → List (Option SpecArtifact) →
    List (IRType × Option SpecArtifact) →
    List (Option SpecArtifact) × List (IRType × Option SpecArtifact) × Bool
  | [], all, prev => (all, prev, true)
  | some a :: rest, all, prev =>
    pushArtifacts rest (all ++ [some a]) (mapSet prev a.irType (some a))
  | none :: _, all, prev => (all ++ [none], prev, false)

/-- The stage loop of `Pipeline.execute` (lines 67-120).  The source
iterates `for (let i = startFromStage; i < AGENT_ORDER.length; i++)`;
the model recurses over the corresponding list
`AGENT_ORDER.drop startFromStage`.  Each stage gets the shared context
(session id, module name, prompt, the accumulated artifact map, and the
never-touched top-level feedback history). -/
def pipelineLoop (gen rev : IRType → Nat → String) (now : Nat → Nat) (maxCycles : Int)
    (userPrompt moduleName sessionId : String) :
    List AgentType → List (Option SpecArtifact) → List (IRType × Option SpecArtifact) →
    List CallEvent → PipelineResult × List CallEvent
  | [], all, _prev, tr => (⟨true, all, none⟩, tr)
  | agentType :: stages, all, prev, tr =>
    let r := agentExecute gen rev now maxCycles agentType
      ⟨sessionId, moduleName, userPrompt, prev, []⟩
    let step := pushArtifacts r.1.artifacts all r.2.1.previousArtifacts
    if step.2.2 then
      pipelineLoop gen rev now maxCycles userPrompt moduleName sessionId stages
        step.1 step.2.1 (tr ++ r.2.2)
    else (⟨false, step.1, some "TypeError"⟩, tr ++ r.2.2)

/-- `Pipeline.execute` from `orchestration/pipeline.ts`: seed
`allArtifacts` with the values of the existing-artifact map (lines
52-57), copy the map into `previousArtifacts` (lines 48-50), and run the
stages from `startFromStage`. -/
def pipelineExecute (gen rev : IRType → Nat → String) (now : Nat → Nat) (maxCycles : Int)
    (userPrompt moduleName sessionId : String) (startFromStage : Nat)
    (existing : List (IRType × Option SpecArtifact)) : PipelineResult × List CallEvent :=
  pipelineLoop gen rev now maxCycles userPrompt moduleName sessionId
    (AGENT_ORDER.drop startFromStage) (existing.map fun p => p.2) existing []

/-- The declared output types of a run of consecutive stages, in
production order. -/
def flattenOutputs : List AgentType → List IRType
  | [] => []
  | s :: rest => AGENT_OUTPUTS s ++ flattenOutputs rest

/-- The artifact types of a (runtime, hence nullable) artifact list. -/
def typesOfArtifacts (l : List (Option SpecArtifact)) : List IRType :=
  l.filterMap fun oa => oa.map SpecArtifact.irType

/-! ## Checkpoint store: `utils/storage.ts`

`localStorage` is a string-keyed key/value store; the model is a function
from keys to optional stored values.  `JSON.stringify`/`JSON.parse` on
the flat records the module persists (no functions, no cycles; `Date`
fields are restored explicitly at lines 66-68 of `loadState`) is a
faithful round-trip, so the model stores the typed value itself and keeps
only what the code observes about the serialized string: a stored raw
string is falsy exactly when empty, a serialized object never is. -/

/-- `ModelType` from `types/llm.types.ts`. -/
inductive ModelType where
  | claudeSonnet45
  | claudeOpus45
  | chatgpt52
  deriving DecidableEq, Repr

/-- `APIKeys` from `types/llm.types.ts` — the credentials. -/
structure APIKeys where
  anthropic : Option String
  openai : Option String
  deriving DecidableEq, Repr

/-- `OrchestrationConfig` from `types/orchestration.types.ts`. -/
structure OrchestrationConfig where
  prompt : String
  executorModel : ModelType
  reviewerModel : ModelType
  apiKeys : APIKeys
  maxFeedbackCycles : Int
  deriving DecidableEq, Repr

/-- `Omit<OrchestrationConfig, 'apiKeys'>`: what `saveState` persists
(lines 34-39 of `utils/storage.ts` copy exactly these four fields). -/
structure ConfigWithoutKeys where
  prompt : String
  executorModel : ModelType
  reviewerModel : ModelType
  maxFeedbackCycles : Int
  deriving DecidableEq, Repr

/-- The field-by-field copy at lines 34-39 of `utils/storage.ts`. -/
def configWithoutKeys (config : OrchestrationConfig) : ConfigWithoutKeys :=
  { prompt := config.prompt
    executorModel := config.executorModel
    reviewerModel := config.reviewerModel
    maxFeedbackCycles := config.maxFeedbackCycles }

/-- `OrchestrationState` from `types/orchestration.types.ts`. -/
inductive OrchestrationState where
  | idle
  | running
  | paused
  | complete
  | error
  deriving DecidableEq, Repr

/-- `OrchestrationProgress` from `types/orchestration.types.ts`. -/
structure OrchestrationProgress where
  state : OrchestrationState
  currentStage : Nat
  totalStages : Nat
  currentAgent : Option AgentType
  currentArtifact : Option IRType
  currentFeedbackCycle : Nat
  maxFeedbackCycles : Nat
  completedArtifacts : List String
  statusMessage : String
  error : Option String
  deriving DecidableEq, Repr

/-- A value sitting in `localStorage`: either a raw string (the module
name is stored unserialized) or the JSON serialization of one of the
three persisted records. -/
inductive StoredValue where
  | str (s : String)
  | configVal (c : ConfigWithoutKeys)
  | progressVal (p : OrchestrationProgress)
  | artifactsVal (l : List SpecArtifact)
  deriving DecidableEq, Repr

/-- The four `STORAGE_KEYS` entries of `utils/storage.ts`. -/
def STORAGE_KEY_CONFIG : String := "spec-ir-generator-config"

/-- See `STORAGE_KEY_CONFIG`. -/
def STORAGE_KEY_PROGRESS : String := "spec-ir-generator-progress"

/-- See `STORAGE_KEY_CONFIG`. -/
def STORAGE_KEY_ARTIFACTS : String := "spec-ir-generator-artifacts"

/-- See `STORAGE_KEY_CONFIG`. -/
def STORAGE_KEY_MODULE_NAME : String := "spec-ir-generator-module-name"

/-- The `localStorage` medium. -/
def LocalStore : Type := String → Option StoredValue

/-- `localStorage.setItem`. -/
def setItem (store : LocalStore) (k : String) (v : StoredValue) : LocalStore :=
  fun k2 => if k2 = k then some v else store k2

/-- `localStorage.getItem`. -/
def getItem (store : LocalStore) (k : String) : Option StoredValue := store k

/-- JavaScript truthiness of `localStorage.getItem(...)` as tested at
line 57 of `utils/storage.ts`: `null` is falsy, a raw string is falsy
exactly when empty, and the JSON text of an object (always of the form
`\x7b...\x7d`) is a non-empty string, hence truthy. -/
def isFalsyItem : Option StoredValue → Bool
  | none => true
  | some (.str s) => s == ""
  | some (.configVal _) => false
  | some (.progressVal _) => false
  | some (.artifactsVal _) => false

/-- `PersistedState` from `utils/storage.ts`. -/
structure PersistedState where
  config : ConfigWithoutKeys
  progress : OrchestrationProgress
  artifacts : List SpecArtifact
  moduleName : String
  timestamp : Nat
  deriving DecidableEq, Repr

/-- `saveState` from `utils/storage.ts` (lines 26-48): strip the API
keys from the config and write the four entries. -/
def saveState (config : OrchestrationConfig) (progress : OrchestrationProgress)
    (artifacts : List SpecArtifact) (moduleName : String) (store : LocalStore) :
    LocalStore :=
  setItem (setItem (setItem (setItem store
    STORAGE_KEY_CONFIG (.configVal (configWithoutKeys config)))
    STORAGE_KEY_PROGRESS (.progressVal progress))
    STORAGE_KEY_ARTIFACTS (.artifactsVal artifacts))
    STORAGE_KEY_MODULE_NAME (.str moduleName)

/-- `loadState` from `utils/storage.ts` (lines 50-81): read the four
entries, bail out with `null` when any is falsy, parse (a stored value of
the wrong shape is a parse failure caught at line 77), restore the
artifact `Date`s (identity on the model's timestamps), and stamp the
result with the current time. -/
def loadState (store : LocalStore) (nowMs : Nat) : Option PersistedState :=
  let configStr := getItem store STORAGE_KEY_CONFIG
  let progressStr := getItem store STORAGE_KEY_PROGRESS
  let artifactsStr := getItem store STORAGE_KEY_ARTIFACTS
  let moduleName := getItem store STORAGE_KEY_MODULE_NAME
  if isFalsyItem configStr || isFalsyItem progressStr || isFalsyItem artifactsStr
      || isFalsyItem moduleName then none
  else
    match configStr, progressStr, artifactsStr, moduleName with
    | some (.configVal c), some (.progressVal p), some (.artifactsVal arts),
        some (.str m) => some ⟨c, p, arts, m, nowMs⟩
    | _, _, _, _ => none

/-- `clearState` from `utils/storage.ts` (removal modelled as writing
nothing readable is not needed by any claim; the store after `clear` maps
the four keys to `none`). -/
def clearState (store : LocalStore) : LocalStore :=
  fun k =>
    if k = STORAGE_KEY_CONFIG ∨ k = STORAGE_KEY_PROGRESS ∨ k = STORAGE_KEY_ARTIFACTS
        ∨ k = STORAGE_KEY_MODULE_NAME then none
    else store k

/-- Removing the first occurrence of a pattern that is a prefix just drops
the pattern length. -/
theorem removeFirst_of_isPrefixOf (pat l : List Char) (h : pat.isPrefixOf l = true) :
    removeFirst pat l = l.drop pat.length := by
  cases l with
  | nil => simp [removeFirst]
  | cons c cs => simp [removeFirst, h]

/-- C2 (counterexample): the reviewer response `"NEEDS_REVISION"` starts
with the needs-revision marker and the text after the marker is empty, yet
the classifier returns the canned no-specific-feedback message rather than
that (empty) trailing text. -/
theorem C2_counterexample :
    "NEEDS_REVISION".data.isPrefixOf (trimChars ("NEEDS_REVISION" : String).data) = true ∧
    String.mk ((trimChars ("NEEDS_REVISION" : String).data).drop
      "NEEDS_REVISION".data.length) = "" ∧
    (parseReviewResult "NEEDS_REVISION").approved = false ∧
    (parseReviewResult "NEEDS_REVISION").feedback = noSpecificFeedbackMsg ∧
    (parseReviewResult "NEEDS_REVISION").feedback ≠ "" := by
  decide

/-- C2 (amended): for every reviewer response, with `t` its trimmed form:
if `t` starts with `APPROVED` the classifier approves with empty feedback;
if `t` starts with `NEEDS_REVISION` (and not `APPROVED`) it rejects with
feedback the trimmed text after the marker, falling back to a canned
message when that text is empty; any other `t` is rejected with feedback
the full trimmed text, falling back to a canned message when `t` is empty;
and approval happens only for the `APPROVED` prefix (never silently). -/
theorem C2_parseReviewResult_classification (response : String) :
    ("APPROVED".data.isPrefixOf (trimChars response.data) = true →
      parseReviewResult response = ⟨true, ""⟩) ∧
    ("APPROVED".data.isPrefixOf (trimChars response.data) = false →
      "NEEDS_REVISION".data.isPrefixOf (trimChars response.data) = true →
      parseReviewResult response =
        ⟨false,
          if trimChars ((trimChars response.data).drop "NEEDS_REVISION".data.length) = []
          then noSpecificFeedbackMsg
          else String.mk
            (trimChars ((trimChars response.data).drop "NEEDS_REVISION".data.length))⟩) ∧
    ("APPROVED".data.isPrefixOf (trimChars response.data) = false →
      "NEEDS_REVISION".data.isPrefixOf (trimChars response.data) = false →
      parseReviewResult response =
        ⟨false,
          if trimChars response.data = [] then unparseableMsg
          else String.mk (trimChars response.data)⟩) ∧
    ((parseReviewResult response).approved = true →
      "APPROVED".data.isPrefixOf (trimChars response.data) = true) := by
  refine ⟨?_, ?_, ?_, ?_⟩
  · intro h
    simp [parseReviewResult, parseReviewResultChars, h]
  · intro h1 h2
    simp only [parseReviewResult, parseReviewResultChars, h1, h2, Bool.false_eq_true,
      if_false, if_true]
    rw [removeFirst_of_isPrefixOf _ _ h2]
    rcases hc : trimChars ((trimChars response.data).drop "NEEDS_REVISION".data.length) with
      _ | ⟨c, cs⟩ <;> simp [hc, List.isEmpty]
  · intro h1 h2
    simp only [parseReviewResult, parseReviewResultChars, h1, h2, Bool.false_eq_true,
      if_false]
    rcases hc : trimChars response.data with _ | ⟨c, cs⟩ <;> simp [List.isEmpty]
  · intro h
    by_contra hno
    simp only [Bool.not_eq_true] at hno
    simp [parseReviewResult, parseReviewResultChars, hno] at h
    split at h <;> simp at h

/-- C2 (witness): concrete instance of the amended classification. -/
theorem C2_witness :
    parseReviewResult "NEEDS_REVISION  fix the types section" =
      ⟨false, "fix the types section"⟩ := by
  have h := (C2_parseReviewResult_classification "NEEDS_REVISION  fix the types section").2.1
    (by decide) (by decide)
  rw [h]
  decide

/-- With a non-negative base delay, the exponential-backoff branch is
non-decreasing from one attempt to the next, whatever jitter each attempt
draws. -/
theorem exponentialBackoffDelay_mono (b : Nat) (base maxd j1 j2 : ℚ)
    (hbase : 0 ≤ base) (hj1r : j1 ≤ 1) (hj2l : -1 ≤ j2) :
    exponentialBackoffDelay (b + 1) base maxd j1 ≤
      exponentialBackoffDelay (b + 2) base maxd j2 := by
  unfold exponentialBackoffDelay
  simp only [Nat.add_sub_cancel, show ∀ n : Nat, n + 2 - 1 = n + 1 from fun _ => rfl]
  refine min_le_min ?_ le_rfl
  have h5 : (0 : ℚ) ≤ base * 2 ^ b * (1 / 5) := by positivity
  have h5' : (0 : ℚ) ≤ base * 2 ^ (b + 1) * (1 / 5) := by positivity
  have hA := mul_le_mul_of_nonneg_left hj1r h5
  have hB := mul_le_mul_of_nonneg_left hj2l h5'
  have hpow : (2 : ℚ) ^ (b + 1) = 2 ^ b * 2 := by rw [pow_succ]
  have hE : (0 : ℚ) ≤ base * 2 ^ b := by positivity
  nlinarith [hA, hB, hE, hpow]

/-- C6: with the gateway's configured base and maximum delays, a positive
provider hint yields the hint plus a 500 ms buffer capped at the maximum;
otherwise the delay is `base * 2 ^ (attempt - 1)` with the jitter applied,
capped at the maximum; the delay never exceeds the configured maximum
(which is 2 minutes); and without a provider hint the delay is
non-decreasing in the attempt number, for any jitter draws. -/
theorem C6_backoff_delay (attempt : Nat) (jitterUnit j1 j2 r : ℚ)
    (ha : 1 ≤ attempt) (hj1r : j1 ≤ 1) (hj2l : -1 ≤ j2) :
    (0 < r →
      calculateBackoffDelay attempt RATE_LIMIT_CONFIG.baseDelayMs
        RATE_LIMIT_CONFIG.maxDelayMs jitterUnit (some r) =
      min (r + 500) RATE_LIMIT_CONFIG.maxDelayMs) ∧
    (calculateBackoffDelay attempt RATE_LIMIT_CONFIG.baseDelayMs
        RATE_LIMIT_CONFIG.maxDelayMs jitterUnit none =
      min (RATE_LIMIT_CONFIG.baseDelayMs * 2 ^ (attempt - 1) +
          RATE_LIMIT_CONFIG.baseDelayMs * 2 ^ (attempt - 1) * (1 / 5) * jitterUnit)
        RATE_LIMIT_CONFIG.maxDelayMs) ∧
    (∀ retryAfterMs : Option ℚ,
      calculateBackoffDelay attempt RATE_LIMIT_CONFIG.baseDelayMs
        RATE_LIMIT_CONFIG.maxDelayMs jitterUnit retryAfterMs ≤
      RATE_LIMIT_CONFIG.maxDelayMs) ∧
    RATE_LIMIT_CONFIG.maxDelayMs = 120000 ∧
    calculateBackoffDelay attempt RATE_LIMIT_CONFIG.baseDelayMs
        RATE_LIMIT_CONFIG.maxDelayMs j1 none ≤
      calculateBackoffDelay (attempt + 1) RATE_LIMIT_CONFIG.baseDelayMs
        RATE_LIMIT_CONFIG.maxDelayMs j2 none := by
  refine ⟨?_, ?_, ?_, rfl, ?_⟩
  · intro hr
    simp [calculateBackoffDelay, hr]
  · simp [calculateBackoffDelay, exponentialBackoffDelay]
  · intro retryAfterMs
    rcases retryAfterMs with _ | r' <;>
      simp only [calculateBackoffDelay, exponentialBackoffDelay] <;>
      [skip; split_ifs] <;> exact min_le_right _ _
  · obtain ⟨b, rfl⟩ : ∃ b, attempt = b + 1 :=
      ⟨attempt - 1, (Nat.succ_pred_eq_of_pos ha).symm⟩
    simpa [calculateBackoffDelay] using
      exponentialBackoffDelay_mono b RATE_LIMIT_CONFIG.baseDelayMs
        RATE_LIMIT_CONFIG.maxDelayMs j1 j2 (by norm_num [RATE_LIMIT_CONFIG]) hj1r hj2l

/-- C6 (witness): at attempt 3 with a 5-second provider hint the delay is
5.5 s; without a hint and zero jitter it is 8 s; both below the 2-minute
cap. -/
theorem C6_witness :
    (1 : Nat) ≤ 3 ∧ (0 : ℚ) ≤ 1 ∧ (-1 : ℚ) ≤ 0 ∧
    calculateBackoffDelay 3 RATE_LIMIT_CONFIG.baseDelayMs RATE_LIMIT_CONFIG.maxDelayMs
      0 (some 5000) = min (5000 + 500) RATE_LIMIT_CONFIG.maxDelayMs :=
  ⟨by norm_num, by norm_num, by norm_num,
    (C6_backoff_delay 3 0 0 0 5000 (by norm_num) (by norm_num) (by norm_num)).1
      (by norm_num)⟩

/-- One unfolding step of the gateway retry loop. -/
theorem gatewayCallLoop_succ (provider : String) (resp : Nat → Option ProviderResponse)
    (jitter : Nat → ℚ) (attempt fuel made : Nat) (sleeps : List ℚ) :
    gatewayCallLoop provider resp jitter attempt (fuel + 1) made sleeps =
      match resp attempt with
      | none => (.fetchFailed attempt, made + 1, sleeps)
      | some r =>
        if isRateLimitError r.status none then
          let headerMs : Nat := match r.retryAfterHeaderSecs with
            | some s => s * 1000
            | none => 0
          let retryAfterMs : Nat := match r.bodyRetrySecs with
            | some s => s * 1000
            | none => headerMs
          if attempt < RATE_LIMIT_CONFIG.maxRetries then
            let d := calculateBackoffDelay attempt RATE_LIMIT_CONFIG.baseDelayMs
              RATE_LIMIT_CONFIG.maxDelayMs (jitter attempt) (some (retryAfterMs : ℚ))
            gatewayCallLoop provider resp jitter (attempt + 1) fuel (made + 1) (sleeps ++ [d])
          else (.rateLimitExhausted provider attempt, made + 1, sleeps)
        else if ¬(200 ≤ r.status ∧ r.status < 300) then
          if r.status = 401 ∨ r.status = 403 then
            (.apiError provider r.status r.errorMessage, made + 1, sleeps)
          else if 500 ≤ r.status ∧ attempt < RATE_LIMIT_CONFIG.maxRetries then
            let d := calculateBackoffDelay attempt RATE_LIMIT_CONFIG.baseDelayMs
              RATE_LIMIT_CONFIG.maxDelayMs (jitter attempt) none
            gatewayCallLoop provider resp jitter (attempt + 1) fuel (made + 1) (sleeps ++ [d])
          else (.apiError provider r.status r.errorMessage, made + 1, sleeps)
        else (.success r.content, made + 1, sleeps) := rfl

/-- A 401 or 403 status is not classified as a rate limit. -/
theorem isRateLimitError_of_auth (st : Nat) (h : st = 401 ∨ st = 403) :
    isRateLimitError st none = false := by
  rcases h with h | h <;> simp [h, isRateLimitError]

/-- A 5xx status other than 529 is not classified as a rate limit. -/
theorem isRateLimitError_of_server (st : Nat) (h5 : 500 ≤ st) (h529 : st ≠ 529) :
    isRateLimitError st none = false := by
  unfold isRateLimitError
  split_ifs <;> first | omega | rfl

/-- The loop never issues more fetches than it has fuel for. -/
theorem gatewayCallLoop_attempts_le (provider : String)
    (resp : Nat → Option ProviderResponse) (jitter : Nat → ℚ) :
    ∀ (fuel attempt made : Nat) (sleeps : List ℚ),
      (gatewayCallLoop provider resp jitter attempt fuel made sleeps).2.1 ≤ made + fuel := by
  intro fuel
  induction fuel with
  | zero => intro a m s; simp [gatewayCallLoop]
  | succ f ih =>
    intro a m s
    rw [gatewayCallLoop_succ]
    cases hr : resp a with
    | none => simp
    | some r =>
      simp only []
      split_ifs <;>
        first
        | exact le_trans (ih (a + 1) (m + 1) _) (by omega)
        | simp

/-- If every attempt up to the ceiling is answered with a rate-limit
status, the loop ends in the `rate limit exceeded after 5 attempts` throw
after issuing one fetch per remaining unit of fuel. -/
theorem gatewayCallLoop_rateLimited_all (provider : String)
    (resp : Nat → Option ProviderResponse) (jitter : Nat → ℚ) (R : Nat → ProviderResponse)
    (hR : ∀ a, 1 ≤ a → a ≤ 5 → resp a = some (R a))
    (hrl : ∀ a, 1 ≤ a → a ≤ 5 → isRateLimitError (R a).status none = true) :
    ∀ (fuel attempt made : Nat) (sleeps : List ℚ),
      attempt + fuel = 6 → 1 ≤ attempt → attempt ≤ 5 →
      (gatewayCallLoop provider resp jitter attempt fuel made sleeps).1 =
        .rateLimitExhausted provider 5 ∧
      (gatewayCallLoop provider resp jitter attempt fuel made sleeps).2.1 = made + fuel := by
  intro fuel
  induction fuel with
  | zero => intro a m s hsum h1 h5; omega
  | succ f ih =>
    intro a m s hsum h1 h5
    rw [gatewayCallLoop_succ, hR a h1 h5]
    simp only [hrl a h1 h5, if_true,
      show RATE_LIMIT_CONFIG.maxRetries = 5 from rfl]
    by_cases hlt : a < 5
    · rw [if_pos hlt]
      obtain ⟨ih1, ih2⟩ := ih (a + 1) (m + 1) _ (by omega) (by omega) (by omega)
      refine ⟨ih1, ?_⟩
      rw [ih2]
      omega
    · rw [if_neg hlt]
      have ha : a = 5 := by omega
      have hf : f = 0 := by omega
      subst ha hf
      exact ⟨rfl, rfl⟩

/-- If every attempt up to the ceiling is answered with a non-rate-limit
5xx status, the loop retries to the ceiling and ends in the generic
`API error` throw carrying the last status and message — with no attempt
count. -/
theorem gatewayCallLoop_server_all (provider : String)
    (resp : Nat → Option ProviderResponse) (jitter : Nat → ℚ) (R : Nat → ProviderResponse)
    (hR : ∀ a, 1 ≤ a → a ≤ 5 → resp a = some (R a))
    (hsrv : ∀ a, 1 ≤ a → a ≤ 5 → 500 ≤ (R a).status ∧ (R a).status ≠ 529) :
    ∀ (fuel attempt made : Nat) (sleeps : List ℚ),
      attempt + fuel = 6 → 1 ≤ attempt → attempt ≤ 5 →
      (gatewayCallLoop provider resp jitter attempt fuel made sleeps).1 =
        .apiError provider (R 5).status (R 5).errorMessage ∧
      (gatewayCallLoop provider resp jitter attempt fuel made sleeps).2.1 = made + fuel := by
  intro fuel
  induction fuel with
  | zero => intro a m s hsum h1 h5; omega
  | succ f ih =>
    intro a m s hsum h1 h5
    obtain ⟨hst, h529⟩ := hsrv a h1 h5
    rw [gatewayCallLoop_succ, hR a h1 h5]
    simp only [isRateLimitError_of_server _ hst h529, Bool.false_eq_true, if_false,
      show RATE_LIMIT_CONFIG.maxRetries = 5 from rfl]
    rw [if_pos (by omega : ¬(200 ≤ (R a).status ∧ (R a).status < 300)),
      if_neg (by omega : ¬((R a).status = 401 ∨ (R a).status = 403))]
    by_cases hlt : a < 5
    · rw [if_pos ⟨hst, hlt⟩]
      obtain ⟨ih1, ih2⟩ := ih (a + 1) (m + 1) _ (by omega) (by omega) (by omega)
      refine ⟨ih1, ?_⟩
      rw [ih2]
      omega
    · rw [if_neg (by omega : ¬(500 ≤ (R a).status ∧ a < 5))]
      have ha : a = 5 := by omega
      have hf : f = 0 := by omega
      subst ha hf
      exact ⟨rfl, rfl⟩

/-- C7: when the provider answers the first attempt with an auth-class
status (401 or 403), both gateways make exactly one attempt and fail
immediately with the API error — no retry and no backoff wait. -/
theorem C7_auth_no_retry (respA respO : Nat → Option ProviderResponse)
    (jitterA jitterO : Nat → ℚ) (rA rO : ProviderResponse)
    (hA : respA 1 = some rA) (hsA : rA.status = 401 ∨ rA.status = 403)
    (hO : respO 1 = some rO) (hsO : rO.status = 401 ∨ rO.status = 403) :
    callAnthropic respA jitterA = (.apiError "Anthropic" rA.status rA.errorMessage, 1, []) ∧
    callOpenAI respO jitterO = (.apiError "OpenAI" rO.status rO.errorMessage, 1, []) := by
  constructor
  · unfold callAnthropic
    rw [show RATE_LIMIT_CONFIG.maxRetries = 4 + 1 from rfl, gatewayCallLoop_succ, hA]
    simp only [isRateLimitError_of_auth _ hsA, Bool.false_eq_true, if_false]
    have hok : ¬(200 ≤ rA.status ∧ rA.status < 300) := by rcases hsA with h | h <;> omega
    rw [if_pos hok, if_pos hsA]
  · unfold callOpenAI
    rw [show RATE_LIMIT_CONFIG.maxRetries = 4 + 1 from rfl, gatewayCallLoop_succ, hO]
    simp only [isRateLimitError_of_auth _ hsO, Bool.false_eq_true, if_false]
    have hok : ¬(200 ≤ rO.status ∧ rO.status < 300) := by rcases hsO with h | h <;> omega
    rw [if_pos hok, if_pos hsO]

/-- C7 (witness): concrete auth rejections on the first attempt. -/
theorem C7_witness :
    callAnthropic (fun _ => some ⟨401, none, none, "invalid api key", ""⟩) (fun _ => 0) =
      (.apiError "Anthropic" 401 "invalid api key", 1, []) ∧
    callOpenAI (fun _ => some ⟨403, none, none, "permission denied", ""⟩) (fun _ => 0) =
      (.apiError "OpenAI" 403 "permission denied", 1, []) :=
  C7_auth_no_retry (fun _ => some ⟨401, none, none, "invalid api key", ""⟩)
    (fun _ => some ⟨403, none, none, "permission denied", ""⟩) (fun _ => 0) (fun _ => 0)
    ⟨401, none, none, "invalid api key", ""⟩ ⟨403, none, none, "permission denied", ""⟩
    rfl (Or.inl rfl) rfl (Or.inr rfl)

/-- C8 (counterexample): a provider that answers every attempt with a
plain 500 exhausts all 5 attempts, but the terminal error is the generic
API error, whose message names the status and body — not the attempt
count — contrary to the claim that exhaustion on any retryable class
surfaces an error naming the attempt count. -/
theorem C8_counterexample :
    (callAnthropic (fun _ => some ⟨500, none, none, "internal server error", ""⟩)
        (fun _ => 0)).1 =
      .apiError "Anthropic" 500 "internal server error" ∧
    (callAnthropic (fun _ => some ⟨500, none, none, "internal server error", ""⟩)
        (fun _ => 0)).2.1 = 5 ∧
    containsSeq "attempts".data
      ((callAnthropic (fun _ => some ⟨500, none, none, "internal server error", ""⟩)
        (fun _ => 0)).1.message).data = false ∧
    callAnthropic (fun _ => none) (fun _ => 0) = (.fetchFailed 1, 1, []) := by
  decide

/-- C8 (amended): every gateway call makes at most 5 attempts; exhausting
the ceiling on the rate-limit class surfaces the terminal error naming the
attempt count; exhausting it on server-side (5xx) failures surfaces the
generic API error carrying the last status and message, without the
attempt count; and a transport failure is not retried at all — the first
rejected fetch propagates after exactly one attempt. -/
theorem C8_retry_ceiling :
    (∀ (resp : Nat → Option ProviderResponse) (jitter : Nat → ℚ),
      (callAnthropic resp jitter).2.1 ≤ RATE_LIMIT_CONFIG.maxRetries ∧
      (callOpenAI resp jitter).2.1 ≤ RATE_LIMIT_CONFIG.maxRetries) ∧
    (∀ (resp : Nat → Option ProviderResponse) (jitter : Nat → ℚ)
        (R : Nat → ProviderResponse),
      (∀ a, 1 ≤ a → a ≤ 5 → resp a = some (R a)) →
      (∀ a, 1 ≤ a → a ≤ 5 → isRateLimitError (R a).status none = true) →
      (callAnthropic resp jitter).1 = .rateLimitExhausted "Anthropic" 5 ∧
      (callAnthropic resp jitter).2.1 = 5 ∧
      mentionsAttemptCount (callAnthropic resp jitter).1.message 5 = true ∧
      (callOpenAI resp jitter).1 = .rateLimitExhausted "OpenAI" 5 ∧
      mentionsAttemptCount (callOpenAI resp jitter).1.message 5 = true) ∧
    (∀ (resp : Nat → Option ProviderResponse) (jitter : Nat → ℚ)
        (R : Nat → ProviderResponse),
      (∀ a, 1 ≤ a → a ≤ 5 → resp a = some (R a)) →
      (∀ a, 1 ≤ a → a ≤ 5 → 500 ≤ (R a).status ∧ (R a).status ≠ 529) →
      (callAnthropic resp jitter).1 =
        .apiError "Anthropic" (R 5).status (R 5).errorMessage ∧
      (callAnthropic resp jitter).2.1 = 5 ∧
      (callOpenAI resp jitter).1 = .apiError "OpenAI" (R 5).status (R 5).errorMessage) ∧
    (∀ (resp : Nat → Option ProviderResponse) (jitter : Nat → ℚ), resp 1 = none →
      callAnthropic resp jitter = (.fetchFailed 1, 1, []) ∧
      callOpenAI resp jitter = (.fetchFailed 1, 1, [])) := by
  refine ⟨?_, ?_, ?_, ?_⟩
  · intro resp jitter
    exact ⟨gatewayCallLoop_attempts_le "Anthropic" resp jitter 5 1 0 [],
      gatewayCallLoop_attempts_le "OpenAI" resp jitter 5 1 0 []⟩
  · intro resp jitter R hR hrl
    obtain ⟨hA1, hA2⟩ := gatewayCallLoop_rateLimited_all "Anthropic" resp jitter R hR hrl
      5 1 0 [] (by omega) (by omega) (by omega)
    obtain ⟨hO1, hO2⟩ := gatewayCallLoop_rateLimited_all "OpenAI" resp jitter R hR hrl
      5 1 0 [] (by omega) (by omega) (by omega)
    simp only [callAnthropic, callOpenAI, show RATE_LIMIT_CONFIG.maxRetries = 5 from rfl]
    refine ⟨hA1, by rw [hA2], ?_, hO1, ?_⟩
    · rw [hA1]; decide
    · rw [hO1]; decide
  · intro resp jitter R hR hsrv
    obtain ⟨hA1, hA2⟩ := gatewayCallLoop_server_all "Anthropic" resp jitter R hR hsrv
      5 1 0 [] (by omega) (by omega) (by omega)
    obtain ⟨hO1, _⟩ := gatewayCallLoop_server_all "OpenAI" resp jitter R hR hsrv
      5 1 0 [] (by omega) (by omega) (by omega)
    simp only [callAnthropic, callOpenAI, show RATE_LIMIT_CONFIG.maxRetries = 5 from rfl]
    exact ⟨hA1, by rw [hA2], hO1⟩
  · intro resp jitter hnone
    constructor <;>
      [unfold callAnthropic; unfold callOpenAI] <;>
      rw [show RATE_LIMIT_CONFIG.maxRetries = 4 + 1 from rfl, gatewayCallLoop_succ,
        hnone]

/-- C8 (witness): five straight 429 responses exhaust the ceiling with
the attempt-naming error; a first-attempt transport failure stops after
one attempt. -/
theorem C8_witness :
    (callAnthropic (fun _ => some ⟨429, some 3, none, "rate limit reached", ""⟩)
        (fun _ => 0)).1 = .rateLimitExhausted "Anthropic" 5 ∧
    mentionsAttemptCount
      ((callAnthropic (fun _ => some ⟨429, some 3, none, "rate limit reached", ""⟩)
        (fun _ => 0)).1.message) 5 = true := by
  have h := C8_retry_ceiling.2.1 (fun _ => some ⟨429, some 3, none, "rate limit reached", ""⟩)
    (fun _ => 0) (fun _ => ⟨429, some 3, none, "rate limit reached", ""⟩)
    (fun _ _ _ => rfl) (fun _ _ _ => rfl)
  exact ⟨h.1, h.2.2.1⟩

/-- One unfolding step of the engine loop. -/
theorem cycleLoop_succ (agentType : AgentType) (irType : IRType) (gen rev : Nat → String)
    (now : Nat → Nat) (maxCycles : Int) (cycle fuel : Nat) (art : Option SpecArtifact)
    (hist : List FeedbackEntry) (tr : List CallEvent) :
    cycleLoop agentType irType gen rev now maxCycles cycle (fuel + 1) art hist tr =
      (let content := cleanSpecContent (gen cycle)
       let artifact := mkCycleArtifact agentType irType content (now cycle)
       let reviewResult := parseReviewResult (rev cycle)
       let tr2 := tr ++ [.generateCall irType cycle, .reviewCall irType cycle]
       if reviewResult.approved then
         (⟨some artifact, (cycle : Int), true, hist⟩, tr2)
       else
         cycleLoop agentType irType gen rev now maxCycles (cycle + 1) fuel (some artifact)
           (hist ++ [⟨cycle, irType, reviewResult.feedback, content, now cycle⟩]) tr2) := rfl

/-- `cyclePairs` contains one generate call per cycle. -/
theorem genCount_cyclePairs (irType : IRType) :
    ∀ f c, genCount (cyclePairs irType c f) = f := by
  intro f
  induction f with
  | zero => intro c; rfl
  | succ f ih =>
    intro c
    simp only [cyclePairs, genCount, List.filter_append] at *
    simp [List.length_append, ih, CallEvent.isGenerate, genCount]

/-- `cyclePairs` contains one review call per cycle. -/
theorem revCount_cyclePairs (irType : IRType) :
    ∀ f c, revCount (cyclePairs irType c f) = f := by
  intro f
  induction f with
  | zero => intro c; rfl
  | succ f ih =>
    intro c
    simp only [cyclePairs, revCount, List.filter_append] at *
    simp [List.length_append, ih, CallEvent.isReview, revCount]

/-- The generate calls of `cyclePairs` all target the same artifact
type. -/
theorem genTargets_cyclePairs (irType : IRType) :
    ∀ f c, genTargets (cyclePairs irType c f) = List.replicate f irType := by
  intro f
  induction f with
  | zero => intro c; rfl
  | succ f ih =>
    intro c
    simp only [cyclePairs, genTargets, List.filterMap_append] at *
    simp [ih, List.replicate_succ, genTargets]

/-- `genTargets` distributes over concatenation. -/
theorem genTargets_append (tr1 tr2 : List CallEvent) :
    genTargets (tr1 ++ tr2) = genTargets tr1 ++ genTargets tr2 :=
  List.filterMap_append ..

/-- If the reviewer rejects every cycle in the window, the engine runs
out of fuel: not approved, `cyclesUsed = maxCycles`, trace extended by one
generate/review pair per cycle, and the artifact is the one built in the
final cycle (or the incoming one when there is no fuel). -/
theorem cycleLoop_all_rejected (agentType : AgentType) (irType : IRType)
    (gen rev : Nat → String) (now : Nat → Nat) (maxCycles : Int) :
    ∀ (fuel cycle : Nat) (art : Option SpecArtifact) (hist : List FeedbackEntry)
      (tr : List CallEvent),
      (∀ j, cycle ≤ j → j < cycle + fuel → (parseReviewResult (rev j)).approved = false) →
      (cycleLoop agentType irType gen rev now maxCycles cycle fuel art hist tr).1.approved
          = false ∧
      (cycleLoop agentType irType gen rev now maxCycles cycle fuel art hist tr).1.cyclesUsed
          = maxCycles ∧
      (cycleLoop agentType irType gen rev now maxCycles cycle fuel art hist tr).2
          = tr ++ cyclePairs irType cycle fuel ∧
      (cycleLoop agentType irType gen rev now maxCycles cycle fuel art hist tr).1.artifact
          = if fuel = 0 then art
            else some (mkCycleArtifact agentType irType
              (cleanSpecContent (gen (cycle + fuel - 1))) (now (cycle + fuel - 1))) := by
  intro fuel
  induction fuel with
  | zero =>
    intro c art hist tr _
    simp [cycleLoop, cyclePairs]
  | succ f ih =>
    intro c art hist tr hrej
    have hcur : (parseReviewResult (rev c)).approved = false :=
      hrej c le_rfl (by omega)
    rw [cycleLoop_succ]
    simp only [hcur, Bool.false_eq_true, if_false]
    obtain ⟨ih1, ih2, ih3, ih4⟩ := ih (c + 1)
      (some (mkCycleArtifact agentType irType (cleanSpecContent (gen c)) (now c)))
      (hist ++ [⟨c, irType, (parseReviewResult (rev c)).feedback,
        cleanSpecContent (gen c), now c⟩])
      (tr ++ [.generateCall irType c, .reviewCall irType c])
      (fun j hj1 hj2 => hrej j (by omega) (by omega))
    refine ⟨ih1, ih2, ?_, ?_⟩
    · rw [ih3, cyclePairs, List.append_assoc]
    · rw [ih4]
      cases f with
      | zero => simp
      | succ f' =>
        simp only [if_neg (Nat.succ_ne_zero f'), if_neg (Nat.succ_ne_zero f')]
        have harg : c + 1 + (f' + 1) - 1 = c + (f' + 1 + 1) - 1 := by omega
        rw [harg]
        simp

/-- If the reviewer rejects the first `m` cycles of the window and
approves the next one, the engine stops there: approved, `cyclesUsed`
equal to the approving cycle, one generate/review pair per executed
cycle, and the artifact built from the approving cycle's generation. -/
theorem cycleLoop_approved_at (agentType : AgentType) (irType : IRType)
    (gen rev : Nat → String) (now : Nat → Nat) (maxCycles : Int) :
    ∀ (m fuel cycle : Nat) (art : Option SpecArtifact) (hist : List FeedbackEntry)
      (tr : List CallEvent),
      m < fuel →
      (∀ j, cycle ≤ j → j < cycle + m → (parseReviewResult (rev j)).approved = false) →
      (parseReviewResult (rev (cycle + m))).approved = true →
      (cycleLoop agentType irType gen rev now maxCycles cycle fuel art hist tr).1.approved
          = true ∧
      (cycleLoop agentType irType gen rev now maxCycles cycle fuel art hist tr).1.cyclesUsed
          = ((cycle + m : Nat) : Int) ∧
      (cycleLoop agentType irType gen rev now maxCycles cycle fuel art hist tr).2
          = tr ++ cyclePairs irType cycle (m + 1) ∧
      (cycleLoop agentType irType gen rev now maxCycles cycle fuel art hist tr).1.artifact
          = some (mkCycleArtifact agentType irType
              (cleanSpecContent (gen (cycle + m))) (now (cycle + m))) := by
  intro m
  induction m with
  | zero =>
    intro fuel c art hist tr hm hprev happ
    cases fuel with
    | zero => omega
    | succ f =>
      rw [Nat.add_zero] at happ
      rw [cycleLoop_succ]
      simp only [happ, if_true]
      refine ⟨by simp, by simp, ?_, by simp⟩
      rw [cyclePairs, cyclePairs]
      simp
  | succ m ih =>
    intro fuel c art hist tr hm hprev happ
    cases fuel with
    | zero => omega
    | succ f =>
      have hcur : (parseReviewResult (rev c)).approved = false :=
        hprev c le_rfl (by omega)
      rw [cycleLoop_succ]
      simp only [hcur, Bool.false_eq_true, if_false]
      have harg : c + 1 + m = c + (m + 1) := by omega
      obtain ⟨ih1, ih2, ih3, ih4⟩ := ih f (c + 1)
        (some (mkCycleArtifact agentType irType (cleanSpecContent (gen c)) (now c)))
        (hist ++ [⟨c, irType, (parseReviewResult (rev c)).feedback,
          cleanSpecContent (gen c), now c⟩])
        (tr ++ [.generateCall irType c, .reviewCall irType c])
        (by omega)
        (fun j hj1 hj2 => hprev j (by omega) (by omega))
        (by rw [harg]; exact happ)
      refine ⟨ih1, by rw [ih2, harg], ?_, by rw [ih4, harg]⟩
      rw [ih3, List.append_assoc]
      rfl

/-- Whatever the reviewer answers, the engine's trace is the incoming
trace followed by one generate/review pair per executed cycle: at least
one when there is fuel, and never more pairs than fuel. -/
theorem cycleLoop_trace_shape (agentType : AgentType) (irType : IRType)
    (gen rev : Nat → String) (now : Nat → Nat) (maxCycles : Int) :
    ∀ (fuel cycle : Nat) (art : Option SpecArtifact) (hist : List FeedbackEntry)
      (tr : List CallEvent),
      ∃ n, (1 ≤ fuel → 1 ≤ n) ∧ n ≤ fuel ∧
        (cycleLoop agentType irType gen rev now maxCycles cycle fuel art hist tr).2
          = tr ++ cyclePairs irType cycle n := by
  intro fuel
  induction fuel with
  | zero =>
    intro c art hist tr
    exact ⟨0, by omega, le_rfl, by simp [cycleLoop, cyclePairs]⟩
  | succ f ih =>
    intro c art hist tr
    rw [cycleLoop_succ]
    cases happ : (parseReviewResult (rev c)).approved with
    | true =>
      refine ⟨1, fun _ => le_rfl, by omega, ?_⟩
      simp only [happ, if_true]
      rw [cyclePairs, cyclePairs]
      simp
    | false =>
      simp only [happ, Bool.false_eq_true, if_false]
      obtain ⟨n, hn1, hn2, hn3⟩ := ih (c + 1)
        (some (mkCycleArtifact agentType irType (cleanSpecContent (gen c)) (now c)))
        (hist ++ [⟨c, irType, (parseReviewResult (rev c)).feedback,
          cleanSpecContent (gen c), now c⟩])
        (tr ++ [.generateCall irType c, .reviewCall irType c])
      refine ⟨n + 1, by omega, by omega, ?_⟩
      rw [hn3, List.append_assoc]
      rfl

/-- The engine only ever stores artifacts of its own type. -/
theorem cycleLoop_artifact_irType (agentType : AgentType) (irType : IRType)
    (gen rev : Nat → String) (now : Nat → Nat) (maxCycles : Int) :
    ∀ (fuel cycle : Nat) (art : Option SpecArtifact) (hist : List FeedbackEntry)
      (tr : List CallEvent),
      (∀ a, art = some a → a.irType = irType) →
      ∀ a, (cycleLoop agentType irType gen rev now maxCycles cycle fuel art hist tr).1.artifact
          = some a → a.irType = irType := by
  intro fuel
  induction fuel with
  | zero =>
    intro c art hist tr hart a ha
    exact hart a ha
  | succ f ih =>
    intro c art hist tr _hart a ha
    rw [cycleLoop_succ] at ha
    cases happ : (parseReviewResult (rev c)).approved with
    | true =>
      simp only [happ, if_true] at ha
      obtain rfl : mkCycleArtifact agentType irType (cleanSpecContent (gen c)) (now c) = a :=
        Option.some_injective _ ha
      rfl
    | false =>
      simp only [happ, Bool.false_eq_true, if_false] at ha
      exact ih (c + 1) _ _ _ (fun b hb => by
        obtain rfl : mkCycleArtifact agentType irType (cleanSpecContent (gen c)) (now c) = b :=
          Option.some_injective _ hb
        rfl) a ha

/-- With fuel (or an already stored artifact) the engine returns a
non-null artifact. -/
theorem cycleLoop_artifact_isSome (agentType : AgentType) (irType : IRType)
    (gen rev : Nat → String) (now : Nat → Nat) (maxCycles : Int) :
    ∀ (fuel cycle : Nat) (art : Option SpecArtifact) (hist : List FeedbackEntry)
      (tr : List CallEvent),
      (1 ≤ fuel ∨ art.isSome = true) →
      ((cycleLoop agentType irType gen rev now maxCycles cycle fuel art hist tr).1.artifact).isSome
        = true := by
  intro fuel
  induction fuel with
  | zero =>
    intro c art hist tr h
    rcases h with h | h
    · omega
    · simpa [cycleLoop] using h
  | succ f ih =>
    intro c art hist tr _h
    rw [cycleLoop_succ]
    cases happ : (parseReviewResult (rev c)).approved with
    | true => simp [happ]
    | false =>
      simp only [happ, Bool.false_eq_true, if_false]
      exact ih (c + 1) _ _ _ (Or.inr rfl)

/-- The feedback-cycle trace is one generate/review pair per executed
cycle: at least one cycle when the budget is positive, at most the
budget. -/
theorem gwfc_trace_shape (agentType : AgentType) (irType : IRType) (gen rev : Nat → String)
    (now : Nat → Nat) (maxCycles : Int) :
    ∃ n, (1 ≤ maxCycles → 1 ≤ n) ∧ n ≤ maxCycles.toNat ∧
      (generateWithFeedbackCycle agentType irType gen rev now maxCycles).2
        = cyclePairs irType 1 n := by
  obtain ⟨n, h1, h2, h3⟩ := cycleLoop_trace_shape agentType irType gen rev now maxCycles
    maxCycles.toNat 1 none [] []
  exact ⟨n, fun h => h1 (by omega), h2, by simpa using h3⟩

/-- With a positive budget the engine returns an artifact of its own
type. -/
theorem gwfc_artifact_some (agentType : AgentType) (irType : IRType)
    (gen rev : Nat → String) (now : Nat → Nat) (maxCycles : Int) (hmax : 1 ≤ maxCycles) :
    ∃ a, (generateWithFeedbackCycle agentType irType gen rev now maxCycles).1.artifact
        = some a ∧ a.irType = irType := by
  have hs := cycleLoop_artifact_isSome agentType irType gen rev now maxCycles
    maxCycles.toNat 1 none [] [] (Or.inl (by omega))
  obtain ⟨a, ha⟩ := Option.isSome_iff_exists.mp hs
  refine ⟨a, ha, ?_⟩
  exact cycleLoop_artifact_irType agentType irType gen rev now maxCycles
    maxCycles.toNat 1 none [] [] (fun b hb => by simp at hb) a ha

/-- The per-stage outputs are never empty. -/
theorem AGENT_OUTPUTS_ne_nil (s : AgentType) : AGENT_OUTPUTS s ≠ [] := by
  cases s <;> simp [AGENT_OUTPUTS]

/-- The head of an append is the head of a nonempty left part. -/
theorem head?_append_of_eq_some {α : Type} (l1 l2 : List α) (x : α)
    (h : l1.head? = some x) : (l1 ++ l2).head? = some x := by
  cases l1 with
  | nil => simp at h
  | cons y t => simpa using h

/-- Running one stage with a positive budget: success, one non-null
artifact per declared type in declared order, and a trace whose generate
calls target exactly the declared types, starting with the first one. -/
theorem agentLoop_run (gen rev : IRType → Nat → String) (now : Nat → Nat)
    (maxCycles : Int) (agentType : AgentType) (hmax : 1 ≤ maxCycles) :
    ∀ (types : List IRType) (arts : List (Option SpecArtifact)) (ctx : AgentContext)
      (tr : List CallEvent),
      ∃ (l : List SpecArtifact) (ctx2 : AgentContext) (ext : List CallEvent),
        agentLoop gen rev now maxCycles agentType types arts ctx tr =
          (⟨arts ++ l.map some, true, none⟩, ctx2, tr ++ ext) ∧
        l.map SpecArtifact.irType = types ∧
        (∀ t', t' ∈ genTargets ext → t' ∈ types) ∧
        (∀ t', t' ∈ types → t' ∈ genTargets ext) ∧
        (genTargets ext).head? = types.head? := by
  intro types
  induction types with
  | nil =>
    intro arts ctx tr
    exact ⟨[], ctx, [], by simp [agentLoop], rfl, by simp [genTargets, List.filterMap],
      by simp, rfl⟩
  | cons t rest ih =>
    intro arts ctx tr
    obtain ⟨a, ha, hat⟩ := gwfc_artifact_some agentType t (gen t) (rev t) now maxCycles hmax
    obtain ⟨n, hn1, _hn2, hn3⟩ := gwfc_trace_shape agentType t (gen t) (rev t) now maxCycles
    obtain ⟨l, ctx2, ext, heq, hty, hmem, hcov, hhead⟩ := ih
      (arts ++ [(generateWithFeedbackCycle agentType t (gen t) (rev t) now maxCycles).1.artifact])
      { ctx with previousArtifacts := (mapSet ctx.previousArtifacts t
          (generateWithFeedbackCycle agentType t (gen t) (rev t) now maxCycles).1.artifact) }
      (tr ++ (generateWithFeedbackCycle agentType t (gen t) (rev t) now maxCycles).2)
    have hgt : genTargets (generateWithFeedbackCycle agentType t (gen t) (rev t) now
        maxCycles).2 = List.replicate n t := by
      rw [hn3, genTargets_cyclePairs]
    have hnpos : 1 ≤ n := hn1 hmax
    refine ⟨a :: l, ctx2,
      (generateWithFeedbackCycle agentType t (gen t) (rev t) now maxCycles).2 ++ ext,
      ?_, ?_, ?_, ?_, ?_⟩
    · simp only [agentLoop]
      rw [heq, ha]
      simp [List.append_assoc]
    · simp [hty, hat]
    · intro t' ht'
      rw [genTargets_append, hgt, List.mem_append] at ht'
      rcases ht' with ht' | ht'
      · rw [List.eq_of_mem_replicate ht']
        exact List.mem_cons_self t rest
      · exact List.mem_cons_of_mem t (hmem t' ht')
    · intro t' ht'
      rw [genTargets_append, hgt, List.mem_append]
      rcases List.mem_cons.mp ht' with rfl | ht'
      · exact Or.inl (List.mem_replicate.mpr ⟨by omega, rfl⟩)
      · exact Or.inr (hcov t' ht')
    · rw [genTargets_append, hgt]
      obtain ⟨m, rfl⟩ : ∃ m, n = m + 1 := ⟨n - 1, by omega⟩
      simp [List.replicate_succ]

/-- Pushing a list of non-null artifacts never hits the null crash, and
appends them to the accumulator. -/
theorem pushArtifacts_map_some :
    ∀ (l : List SpecArtifact) (all : List (Option SpecArtifact))
      (prev : List (IRType × Option SpecArtifact)),
      ∃ prev2, pushArtifacts (l.map some) all prev = (all ++ l.map some, prev2, true) := by
  intro l
  induction l with
  | nil => intro all prev; exact ⟨prev, by simp [pushArtifacts]⟩
  | cons a l ih =>
    intro all prev
    obtain ⟨p2, hp⟩ := ih (all ++ [some a]) (mapSet prev a.irType (some a))
    refine ⟨p2, ?_⟩
    rw [List.map_cons, pushArtifacts, hp]
    simp [List.append_assoc]

/-- Running the pipeline tail with a positive budget: success, one
non-null artifact per declared type of each remaining stage in order, and
a trace whose generate calls target exactly those types, starting with
the first stage's first declared type. -/
theorem pipelineLoop_run (gen rev : IRType → Nat → String) (now : Nat → Nat)
    (maxCycles : Int) (userPrompt moduleName sessionId : String) (hmax : 1 ≤ maxCycles) :
    ∀ (stages : List AgentType) (all : List (Option SpecArtifact))
      (prev : List (IRType × Option SpecArtifact)) (tr : List CallEvent),
      ∃ (l : List SpecArtifact) (ext : List CallEvent),
        pipelineLoop gen rev now maxCycles userPrompt moduleName sessionId stages all prev tr
          = (⟨true, all ++ l.map some, none⟩, tr ++ ext) ∧
        l.map SpecArtifact.irType = flattenOutputs stages ∧
        (∀ t', t' ∈ genTargets ext → t' ∈ flattenOutputs stages) ∧
        (∀ t', t' ∈ flattenOutputs stages → t' ∈ genTargets ext) ∧
        (genTargets ext).head? = (flattenOutputs stages).head? := by
  intro stages
  induction stages with
  | nil =>
    intro all prev tr
    exact ⟨[], [], by simp [pipelineLoop], rfl, by simp [genTargets, List.filterMap],
      by simp [flattenOutputs], rfl⟩
  | cons s stages ih =>
    intro all prev tr
    obtain ⟨la, ctx2, exta, heqa, htya, hmema, hcova, hheada⟩ :=
      agentLoop_run gen rev now maxCycles s hmax (AGENT_OUTPUTS s) []
        ⟨sessionId, moduleName, userPrompt, prev, []⟩ []
    obtain ⟨prev2, hpush⟩ := pushArtifacts_map_some la all ctx2.previousArtifacts
    obtain ⟨l', ext', heq', hty', hmem', hcov', hhead'⟩ := ih (all ++ la.map some) prev2
      (tr ++ exta)
    refine ⟨la ++ l', exta ++ ext', ?_, ?_, ?_, ?_, ?_⟩
    · simp only [pipelineLoop, agentExecute]
      rw [heqa]
      simp only [List.nil_append]
      rw [hpush]
      simp only [if_true]
      rw [heq']
      simp [List.append_assoc]
    · simp only [List.map_append, htya, hty', flattenOutputs]
    · intro t' ht'
      rw [genTargets_append, List.mem_append] at ht'
      simp only [flattenOutputs, List.mem_append]
      rcases ht' with ht' | ht'
      · exact Or.inl (hmema t' ht')
      · exact Or.inr (hmem' t' ht')
    · intro t' ht'
      rw [genTargets_append, List.mem_append]
      simp only [flattenOutputs, List.mem_append] at ht'
      rcases ht' with ht' | ht'
      · exact Or.inl (hcova t' ht')
      · exact Or.inr (hcov' t' ht')
    · rw [genTargets_append]
      obtain ⟨t0, ts, hts⟩ : ∃ t0 ts, AGENT_OUTPUTS s = t0 :: ts := by
        cases hout : AGENT_OUTPUTS s with
        | nil => exact absurd hout (AGENT_OUTPUTS_ne_nil s)
        | cons t0 ts => exact ⟨t0, ts, rfl⟩
      have hh : (genTargets exta).head? = some t0 := by rw [hheada, hts]; rfl
      rw [head?_append_of_eq_some _ _ _ hh]
      simp only [flattenOutputs]
      rw [head?_append_of_eq_some _ _ t0 (by rw [hts]; rfl)]

/-- C3: the engine never performs more than `maxCycles` generate/review
pairs, whatever the oracles answer; and when the reviewer rejects cycles
`1..k-1` and approves cycle `k ≤ maxCycles`, exactly `k` generate and `k`
review calls occur, `cyclesUsed = k`, the run is approved, and the
returned artifact's content is the normalized `k`-th generation. -/
theorem C3_feedback_cycle_counts (agentType : AgentType) (irType : IRType)
    (gen rev : Nat → String) (now : Nat → Nat) (maxCycles : Int) (k : Nat)
    (hk1 : 1 ≤ k) (hk2 : (k : Int) ≤ maxCycles)
    (hprev : ∀ j, 1 ≤ j → j < k → (parseReviewResult (rev j)).approved = false)
    (happ : (parseReviewResult (rev k)).approved = true) :
    (∀ gen2 rev2 : Nat → String,
      genCount (generateWithFeedbackCycle agentType irType gen2 rev2 now maxCycles).2
          ≤ maxCycles.toNat ∧
      revCount (generateWithFeedbackCycle agentType irType gen2 rev2 now maxCycles).2
          ≤ maxCycles.toNat) ∧
    genCount (generateWithFeedbackCycle agentType irType gen rev now maxCycles).2 = k ∧
    revCount (generateWithFeedbackCycle agentType irType gen rev now maxCycles).2 = k ∧
    (generateWithFeedbackCycle agentType irType gen rev now maxCycles).1.cyclesUsed
        = (k : Int) ∧
    (generateWithFeedbackCycle agentType irType gen rev now maxCycles).1.approved = true ∧
    (generateWithFeedbackCycle agentType irType gen rev now maxCycles).1.artifact
        = some (mkCycleArtifact agentType irType (cleanSpecContent (gen k)) (now k)) := by
  have hcount : ∀ gen2 rev2 : Nat → String,
      genCount (generateWithFeedbackCycle agentType irType gen2 rev2 now maxCycles).2
          ≤ maxCycles.toNat ∧
      revCount (generateWithFeedbackCycle agentType irType gen2 rev2 now maxCycles).2
          ≤ maxCycles.toNat := by
    intro gen2 rev2
    obtain ⟨n, _, hn2, hn3⟩ := gwfc_trace_shape agentType irType gen2 rev2 now maxCycles
    rw [hn3, genCount_cyclePairs, revCount_cyclePairs]
    exact ⟨hn2, hn2⟩
  have hm : k - 1 < maxCycles.toNat := by omega
  have harg : 1 + (k - 1) = k := by omega
  obtain ⟨h1, h2, h3, h4⟩ := cycleLoop_approved_at agentType irType gen rev now maxCycles
    (k - 1) maxCycles.toNat 1 none [] [] hm
    (fun j hj1 hj2 => hprev j hj1 (by omega))
    (by rw [harg]; exact happ)
  refine ⟨hcount, ?_, ?_, ?_, h1, ?_⟩
  · show genCount (cycleLoop agentType irType gen rev now maxCycles 1
      maxCycles.toNat none [] []).2 = k
    rw [h3, List.nil_append, genCount_cyclePairs]
    omega
  · show revCount (cycleLoop agentType irType gen rev now maxCycles 1
      maxCycles.toNat none [] []).2 = k
    rw [h3, List.nil_append, revCount_cyclePairs]
    omega
  · rw [show generateWithFeedbackCycle agentType irType gen rev now maxCycles
      = cycleLoop agentType irType gen rev now maxCycles 1 maxCycles.toNat none [] []
      from rfl, h2, harg]
  · rw [show generateWithFeedbackCycle agentType irType gen rev now maxCycles
      = cycleLoop agentType irType gen rev now maxCycles 1 maxCycles.toNat none [] []
      from rfl, h4, harg]

/-- C3 (witness): budget 3, two rejections then an approval on cycle 3
give 3 generate calls, 3 review calls, `cyclesUsed = 3`, approval, and
the third generation as the artifact. -/
theorem C3_witness :
    genCount (generateWithFeedbackCycle .developer .types (fun _ => "body")
      (fun c => if c < 3 then "NEEDS_REVISION tighten it" else "APPROVED")
      (fun _ => 0) 3).2 = 3 ∧
    revCount (generateWithFeedbackCycle .developer .types (fun _ => "body")
      (fun c => if c < 3 then "NEEDS_REVISION tighten it" else "APPROVED")
      (fun _ => 0) 3).2 = 3 ∧
    (generateWithFeedbackCycle .developer .types (fun _ => "body")
      (fun c => if c < 3 then "NEEDS_REVISION tighten it" else "APPROVED")
      (fun _ => 0) 3).1.approved = true := by
  have h := C3_feedback_cycle_counts .developer .types (fun _ => "body")
    (fun c => if c < 3 then "NEEDS_REVISION tighten it" else "APPROVED")
    (fun _ => 0) 3 3 (by norm_num) (by norm_num)
    (fun j hj1 hj2 => by
      show (parseReviewResult
        (if j < 3 then "NEEDS_REVISION tighten it" else "APPROVED")).approved = false
      rw [if_pos hj2]
      decide)
    (by decide)
  exact ⟨h.2.1, h.2.2.1, h.2.2.2.2.1⟩

/-- C4: when the reviewer rejects every cycle of a positive budget, the
engine terminates non-fatally with the last generation as the artifact,
`approved = false` and `cyclesUsed = maxCycles`; and the surrounding
stage loop and pipeline still succeed, producing one artifact entry and
at least one generate call for every remaining declared artifact type —
exhaustion aborts nothing. -/
theorem C4_budget_exhausted_nonfatal (agentType : AgentType) (irType : IRType)
    (gen rev : Nat → String) (now : Nat → Nat) (maxCycles : Int)
    (hmax : 1 ≤ maxCycles)
    (hrej : ∀ j : Nat, 1 ≤ j → (j : Int) ≤ maxCycles →
      (parseReviewResult (rev j)).approved = false) :
    (generateWithFeedbackCycle agentType irType gen rev now maxCycles).1.approved = false ∧
    (generateWithFeedbackCycle agentType irType gen rev now maxCycles).1.cyclesUsed
        = maxCycles ∧
    (generateWithFeedbackCycle agentType irType gen rev now maxCycles).1.artifact
        = some (mkCycleArtifact agentType irType
            (cleanSpecContent (gen maxCycles.toNat)) (now maxCycles.toNat)) ∧
    (∀ (genO revO : IRType → Nat → String) (nowO : Nat → Nat)
        (userPrompt moduleName sessionId : String) (N : Nat)
        (existing : List (IRType × Option SpecArtifact)),
      (pipelineExecute genO revO nowO maxCycles userPrompt moduleName sessionId N
          existing).1.success = true ∧
      (pipelineExecute genO revO nowO maxCycles userPrompt moduleName sessionId N
          existing).1.artifacts.length
        = existing.length + (flattenOutputs (AGENT_ORDER.drop N)).length ∧
      (∀ t', t' ∈ flattenOutputs (AGENT_ORDER.drop N) →
        t' ∈ genTargets (pipelineExecute genO revO nowO maxCycles userPrompt moduleName
          sessionId N existing).2)) := by
  obtain ⟨h1, h2, _h3, h4⟩ := cycleLoop_all_rejected agentType irType gen rev now maxCycles
    maxCycles.toNat 1 none [] []
    (fun j hj1 hj2 => hrej j hj1 (by omega))
  refine ⟨h1, h2, ?_, ?_⟩
  · rw [show generateWithFeedbackCycle agentType irType gen rev now maxCycles
      = cycleLoop agentType irType gen rev now maxCycles 1 maxCycles.toNat none [] []
      from rfl, h4, if_neg (by omega : ¬maxCycles.toNat = 0)]
    have harg : 1 + maxCycles.toNat - 1 = maxCycles.toNat := by omega
    rw [harg]
  · intro genO revO nowO userPrompt moduleName sessionId N existing
    obtain ⟨l, ext, heq, hty, _hmem, hcov, _hhead⟩ := pipelineLoop_run genO revO nowO
      maxCycles userPrompt moduleName sessionId hmax (AGENT_ORDER.drop N)
      (existing.map fun p => p.2) existing []
    refine ⟨?_, ?_, ?_⟩
    · unfold pipelineExecute
      rw [heq]
    · unfold pipelineExecute
      rw [heq]
      simp only [List.length_append, List.length_map]
      rw [show l.length = (l.map SpecArtifact.irType).length from
        (List.length_map l SpecArtifact.irType).symm, hty]
    · intro t' ht'
      unfold pipelineExecute
      rw [heq]
      simpa using hcov t' ht'

/-- C4 (witness): budget 3 and a reviewer that always demands revision
give a best-effort third generation with `approved = false` and
`cyclesUsed = 3`. -/
theorem C4_witness :
    (generateWithFeedbackCycle .product .contract (fun c => toString c)
      (fun _ => "NEEDS_REVISION not yet") (fun _ => 0) 3).1.approved = false ∧
    (generateWithFeedbackCycle .product .contract (fun c => toString c)
      (fun _ => "NEEDS_REVISION not yet") (fun _ => 0) 3).1.cyclesUsed = 3 ∧
    (generateWithFeedbackCycle .product .contract (fun c => toString c)
      (fun _ => "NEEDS_REVISION not yet") (fun _ => 0) 3).1.artifact
      = some (mkCycleArtifact .product .contract (cleanSpecContent "3") 0) := by
  have h := C4_budget_exhausted_nonfatal .product .contract (fun c => toString c)
    (fun _ => "NEEDS_REVISION not yet") (fun _ => 0) 3 (by norm_num)
    (fun j _ _ => by
      show (parseReviewResult "NEEDS_REVISION not yet").approved = false
      decide)
  exact ⟨h.1, h.2.1, h.2.2.1⟩

/-- C10: the engine requires a positive cycle budget: with
`maxFeedbackCycles ≥ 1` the result always carries a non-null artifact,
but with `maxFeedbackCycles ≤ 0` the loop body never runs and the
`artifact!` assertion lets `null` through — the result's artifact is
`none` and no error is reported. -/
theorem C10_positive_budget_precondition (agentType : AgentType) (irType : IRType)
    (gen rev : Nat → String) (now : Nat → Nat) (maxCycles : Int) :
    (1 ≤ maxCycles →
      ((generateWithFeedbackCycle agentType irType gen rev now maxCycles).1.artifact).isSome
        = true) ∧
    (maxCycles ≤ 0 →
      (generateWithFeedbackCycle agentType irType gen rev now maxCycles).1.artifact
        = none) := by
  constructor
  · intro h
    exact cycleLoop_artifact_isSome agentType irType gen rev now maxCycles
      maxCycles.toNat 1 none [] [] (Or.inl (by omega))
  · intro h
    unfold generateWithFeedbackCycle
    rw [Int.toNat_eq_zero.mpr h]
    rfl

/-- The declared outputs of a concatenation of stage runs. -/
theorem flattenOutputs_append :
    ∀ l1 l2 : List AgentType,
      flattenOutputs (l1 ++ l2) = flattenOutputs l1 ++ flattenOutputs l2 := by
  intro l1 l2
  induction l1 with
  | nil => simp [flattenOutputs]
  | cons s l1 ih => simp [flattenOutputs, ih]

/-- The full pipeline declares twelve pairwise distinct artifact types. -/
theorem flattenOutputs_AGENT_ORDER_nodup : (flattenOutputs AGENT_ORDER).Nodup := by
  decide

/-- Stages before `N` and stages from `N` on declare disjoint artifact
types. -/
theorem flattenOutputs_take_drop_disjoint (N : Nat) :
    List.Disjoint (flattenOutputs (AGENT_ORDER.take N))
      (flattenOutputs (AGENT_ORDER.drop N)) := by
  have hsplit : flattenOutputs AGENT_ORDER
      = flattenOutputs (AGENT_ORDER.take N) ++ flattenOutputs (AGENT_ORDER.drop N) := by
    rw [← flattenOutputs_append, List.take_append_drop]
  have h := flattenOutputs_AGENT_ORDER_nodup
  rw [hsplit] at h
  exact List.disjoint_of_nodup_append h

/-- C1: resuming the pipeline at stage index `N`, seeded with persisted
artifacts that all belong to stages before `N`, issues no generate call
for any persisted artifact type, and its first generate call targets
stage `N`'s first declared artifact type that is not among the persisted
ones. -/
theorem C1_resume_skips_persisted (gen rev : IRType → Nat → String) (now : Nat → Nat)
    (maxCycles : Int) (userPrompt moduleName sessionId : String) (N : Nat)
    (existing : List (IRType × Option SpecArtifact))
    (hmax : 1 ≤ maxCycles) (hN : N < AGENT_ORDER.length)
    (hpersist : ∀ p ∈ existing, p.1 ∈ flattenOutputs (AGENT_ORDER.take N)) :
    (∀ p ∈ existing, p.1 ∉ genTargets (pipelineExecute gen rev now maxCycles userPrompt
      moduleName sessionId N existing).2) ∧
    (genTargets (pipelineExecute gen rev now maxCycles userPrompt moduleName sessionId N
        existing).2).head?
      = ((AGENT_OUTPUTS (AGENT_ORDER.get ⟨N, hN⟩)).filter
          (fun t => !(existing.any (fun p => p.1 = t)))).head? := by
  obtain ⟨l, ext, heq, _hty, hmem, _hcov, hhead⟩ := pipelineLoop_run gen rev now maxCycles
    userPrompt moduleName sessionId hmax (AGENT_ORDER.drop N)
    (existing.map fun p => p.2) existing []
  have htr : (pipelineExecute gen rev now maxCycles userPrompt moduleName sessionId N
      existing).2 = ext := by
    unfold pipelineExecute
    rw [heq, List.nil_append]
  have hdisj := flattenOutputs_take_drop_disjoint N
  have h6 : N < 6 := by simpa [AGENT_ORDER] using hN
  have hdropcons : AGENT_ORDER.drop N
      = AGENT_ORDER.get ⟨N, hN⟩ :: AGENT_ORDER.drop (N + 1) := by
    interval_cases N <;> rfl
  constructor
  · intro p hp hptr
    rw [htr] at hptr
    exact hdisj (hpersist p hp) (hmem p.1 hptr)
  · rw [htr, hhead]
    have hfilter : (AGENT_OUTPUTS (AGENT_ORDER.get ⟨N, hN⟩)).filter
        (fun t => !(existing.any (fun p => p.1 = t)))
        = AGENT_OUTPUTS (AGENT_ORDER.get ⟨N, hN⟩) := by
      rw [List.filter_eq_self]
      intro t ht
      have htdrop : t ∈ flattenOutputs (AGENT_ORDER.drop N) := by
        rw [hdropcons]
        simp only [flattenOutputs, List.mem_append]
        exact Or.inl ht
      have hnot : existing.any (fun p => p.1 = t) = false := by
        by_contra hc
        rw [Bool.not_eq_false, List.any_eq_true] at hc
        obtain ⟨p, hp, hpt⟩ := hc
        rw [decide_eq_true_iff] at hpt
        exact hdisj (hpt ▸ hpersist p hp) htdrop
      rw [hnot]
      rfl
    rw [hfilter, hdropcons]
    simp only [flattenOutputs]
    cases hout : AGENT_OUTPUTS (AGENT_ORDER.get ⟨N, hN⟩) with
    | nil => exact absurd hout (AGENT_OUTPUTS_ne_nil _)
    | cons t0 ts => rfl

/-- C1 (witness): resuming at stage index 2 with the three artifacts of
stages 0 and 1 persisted (contract, module, infrastructure as an
interrupted architect stage would leave), the first generate call of the
resumed run targets `tasks`, stage 2's first missing artifact type. -/
theorem C1_witness :
    (genTargets (pipelineExecute (fun _ _ => "g") (fun _ _ => "APPROVED") (fun _ => 0) 3
      "build a demo system" "demo" "session-1" 2
      [(.contract, some (mkCycleArtifact .product .contract "c" 0)),
       (.module, some (mkCycleArtifact .architect .module "m" 0)),
       (.infrastructure, some (mkCycleArtifact .architect .infrastructure "i" 0))]).2).head?
      = some .tasks := by
  have h := (C1_resume_skips_persisted (fun _ _ => "g") (fun _ _ => "APPROVED")
    (fun _ => 0) 3 "build a demo system" "demo" "session-1" 2
    [(.contract, some (mkCycleArtifact .product .contract "c" 0)),
     (.module, some (mkCycleArtifact .architect .module "m" 0)),
     (.infrastructure, some (mkCycleArtifact .architect .infrastructure "i" 0))]
    (by norm_num) (by decide) (by decide)).2
  rw [h]
  decide

/-- The persisted seed values contribute exactly the persisted keys to
the artifact-type list. -/
theorem typesOfArtifacts_seed :
    ∀ existing : List (IRType × Option SpecArtifact),
      (∀ p ∈ existing, ∃ a, p.2 = some a ∧ a.irType = p.1) →
      typesOfArtifacts (existing.map fun p => p.2) = existing.map fun p => p.1 := by
  intro existing
  induction existing with
  | nil => intro _; rfl
  | cons p rest ih =>
    intro h
    obtain ⟨a, ha, hat⟩ := h p (List.mem_cons_self p rest)
    simp only [List.map_cons, typesOfArtifacts, List.filterMap_cons, ha]
    show a.irType :: (rest.map fun p => p.2).filterMap
      (fun oa => Option.map SpecArtifact.irType oa) = p.1 :: rest.map fun p => p.1
    rw [hat]
    congr 1
    exact ih fun q hq => h q (List.mem_cons_of_mem p hq)

/-- Newly produced (non-null) artifacts contribute exactly their types. -/
theorem typesOfArtifacts_map_some (l : List SpecArtifact) :
    typesOfArtifacts (l.map some) = l.map SpecArtifact.irType := by
  induction l with
  | nil => rfl
  | cons a l ih =>
    simp only [List.map_cons, typesOfArtifacts, List.filterMap_cons] at *
    rw [ih]
    rfl

/-- C9: in a run resumed at stage `N` and seeded with nodup persisted
artifacts of earlier stages, the pipeline succeeds, the final artifact
list's types are the persisted types followed by the declared outputs of
the remaining stages, no remaining stage re-produces a persisted type,
and the final type list has no duplicates. -/
theorem C9_artifact_types_unique (gen rev : IRType → Nat → String) (now : Nat → Nat)
    (maxCycles : Int) (userPrompt moduleName sessionId : String) (N : Nat)
    (existing : List (IRType × Option SpecArtifact))
    (hmax : 1 ≤ maxCycles)
    (hkeys : (existing.map fun p => p.1).Nodup)
    (hpersist : ∀ p ∈ existing, p.1 ∈ flattenOutputs (AGENT_ORDER.take N))
    (hvals : ∀ p ∈ existing, ∃ a, p.2 = some a ∧ a.irType = p.1) :
    (pipelineExecute gen rev now maxCycles userPrompt moduleName sessionId N
        existing).1.success = true ∧
    typesOfArtifacts (pipelineExecute gen rev now maxCycles userPrompt moduleName sessionId
        N existing).1.artifacts
      = (existing.map fun p => p.1) ++ flattenOutputs (AGENT_ORDER.drop N) ∧
    (∀ t', t' ∈ flattenOutputs (AGENT_ORDER.drop N) →
      t' ∉ existing.map fun p => p.1) ∧
    (typesOfArtifacts (pipelineExecute gen rev now maxCycles userPrompt moduleName
        sessionId N existing).1.artifacts).Nodup := by
  obtain ⟨l, ext, heq, hty, _hmem, _hcov, _hhead⟩ := pipelineLoop_run gen rev now maxCycles
    userPrompt moduleName sessionId hmax (AGENT_ORDER.drop N)
    (existing.map fun p => p.2) existing []
  have hres : (pipelineExecute gen rev now maxCycles userPrompt moduleName sessionId N
      existing).1 = ⟨true, (existing.map fun p => p.2) ++ l.map some, none⟩ := by
    unfold pipelineExecute
    rw [heq]
  have hdisj := flattenOutputs_take_drop_disjoint N
  have hnokey : ∀ t', t' ∈ flattenOutputs (AGENT_ORDER.drop N) →
      t' ∉ existing.map fun p => p.1 := by
    intro t' ht' hin
    obtain ⟨p, hp, hpt⟩ := List.mem_map.mp hin
    exact hdisj (hpt ▸ hpersist p hp) ht'
  have htypes : typesOfArtifacts (pipelineExecute gen rev now maxCycles userPrompt
      moduleName sessionId N existing).1.artifacts
      = (existing.map fun p => p.1) ++ flattenOutputs (AGENT_ORDER.drop N) := by
    rw [hres]
    show typesOfArtifacts ((existing.map fun p => p.2) ++ l.map some) = _
    unfold typesOfArtifacts
    rw [List.filterMap_append]
    show typesOfArtifacts (existing.map fun p => p.2) ++ typesOfArtifacts (l.map some) = _
    rw [typesOfArtifacts_seed existing hvals, typesOfArtifacts_map_some, hty]
  refine ⟨by rw [hres], htypes, hnokey, ?_⟩
  rw [htypes]
  have hdropnodup : (flattenOutputs (AGENT_ORDER.drop N)).Nodup := by
    have hsplit : flattenOutputs AGENT_ORDER
        = flattenOutputs (AGENT_ORDER.take N) ++ flattenOutputs (AGENT_ORDER.drop N) := by
      rw [← flattenOutputs_append, List.take_append_drop]
    have h := flattenOutputs_AGENT_ORDER_nodup
    rw [hsplit] at h
    exact h.of_append_right
  exact List.Nodup.append hkeys hdropnodup
    (fun t hin hdrop => hnokey t hdrop hin)

/-- C9 (witness): a fresh run (stage 0, nothing persisted) produces all
twelve types exactly once. -/
theorem C9_witness :
    (pipelineExecute (fun _ _ => "g") (fun _ _ => "APPROVED") (fun _ => 0) 3
      "p" "m" "s" 0 []).1.success = true ∧
    (typesOfArtifacts (pipelineExecute (fun _ _ => "g") (fun _ _ => "APPROVED")
      (fun _ => 0) 3 "p" "m" "s" 0 []).1.artifacts).Nodup := by
  have h := C9_artifact_types_unique (fun _ _ => "g") (fun _ _ => "APPROVED") (fun _ => 0)
    3 "p" "m" "s" 0 [] (by norm_num) (by simp) (by simp) (by simp)
  exact ⟨h.1, h.2.2.2⟩

/-- C10 (witness): budget 3 gives an artifact, budget 0 gives `none`. -/
theorem C10_witness :
    ((generateWithFeedbackCycle .scrum .tasks (fun _ => "t") (fun _ => "APPROVED")
      (fun _ => 0) 3).1.artifact).isSome = true ∧
    (generateWithFeedbackCycle .scrum .tasks (fun _ => "t") (fun _ => "APPROVED")
      (fun _ => 0) 0).1.artifact = none :=
  ⟨(C10_positive_budget_precondition .scrum .tasks (fun _ => "t") (fun _ => "APPROVED")
      (fun _ => 0) 3).1 (by norm_num),
    (C10_positive_budget_precondition .scrum .tasks (fun _ => "t") (fun _ => "APPROVED")
      (fun _ => 0) 0).2 (by norm_num)⟩

/-- C5 (counterexample): saving a checkpoint whose run name is the empty
string and loading immediately afterwards returns nothing — the
truthiness test at line 57 of `utils/storage.ts` treats the stored empty
module name like an absent key — so the loaded state is not identical to
what was saved. -/
theorem C5_counterexample :
    loadState (saveState
      ⟨"build x", .claudeSonnet45, .chatgpt52, ⟨some "anthropic-key", some "openai-key"⟩, 3⟩
      ⟨.error, 2, 6, some .architect, some .data, 1, 3, ["contract.spec.ir"],
        "rate limited", some "boom"⟩
      [mkCycleArtifact .product .contract "c" 5] "" (fun _ => none)) 7 = none := by
  decide

/-- C5 (amended): for every saved checkpoint whose run name is non-empty,
loading immediately after saving returns exactly the saved artifacts,
progress (hence stage index) and run name, stripped of the API keys; and
the persisted data is independent of the credentials — two configs
differing only in their API keys produce identical stores. -/
theorem C5_checkpoint_roundtrip (config : OrchestrationConfig)
    (progress : OrchestrationProgress) (artifacts : List SpecArtifact)
    (moduleName : String) (store : LocalStore) (nowMs : Nat) (hmn : moduleName ≠ "") :
    loadState (saveState config progress artifacts moduleName store) nowMs
      = some ⟨configWithoutKeys config, progress, artifacts, moduleName, nowMs⟩ ∧
    (∀ keys1 keys2 : APIKeys,
      saveState { config with apiKeys := keys1 } progress artifacts moduleName store
        = saveState { config with apiKeys := keys2 } progress artifacts moduleName store) := by
  constructor
  · have h1 : getItem (saveState config progress artifacts moduleName store)
        STORAGE_KEY_CONFIG = some (.configVal (configWithoutKeys config)) := by
      unfold saveState setItem getItem
      simp [STORAGE_KEY_CONFIG, STORAGE_KEY_PROGRESS, STORAGE_KEY_ARTIFACTS, STORAGE_KEY_MODULE_NAME]
    have h2 : getItem (saveState config progress artifacts moduleName store)
        STORAGE_KEY_PROGRESS = some (.progressVal progress) := by
      unfold saveState setItem getItem
      simp [STORAGE_KEY_CONFIG, STORAGE_KEY_PROGRESS, STORAGE_KEY_ARTIFACTS, STORAGE_KEY_MODULE_NAME]
    have h3 : getItem (saveState config progress artifacts moduleName store)
        STORAGE_KEY_ARTIFACTS = some (.artifactsVal artifacts) := by
      unfold saveState setItem getItem
      simp [STORAGE_KEY_CONFIG, STORAGE_KEY_PROGRESS, STORAGE_KEY_ARTIFACTS, STORAGE_KEY_MODULE_NAME]
    have h4 : getItem (saveState config progress artifacts moduleName store)
        STORAGE_KEY_MODULE_NAME = some (.str moduleName) := by
      unfold saveState setItem getItem
      simp
    have hbeq : (moduleName == "") = false := beq_eq_false_iff_ne.mpr hmn
    simp [loadState, h1, h2, h3, h4, isFalsyItem, hbeq]
  · intro keys1 keys2
    rfl

/-- C5 (witness): a concrete save/load round trip with a non-empty run
name. -/
theorem C5_witness :
    loadState (saveState
      ⟨"build x", .claudeSonnet45, .chatgpt52, ⟨some "anthropic-key", none⟩, 3⟩
      ⟨.error, 2, 6, some .architect, some .data, 1, 3, ["contract.spec.ir"],
        "rate limited", some "boom"⟩
      [mkCycleArtifact .product .contract "c" 5] "demo-module" (fun _ => none)) 7
      = some ⟨⟨"build x", .claudeSonnet45, .chatgpt52, 3⟩,
          ⟨.error, 2, 6, some .architect, some .data, 1, 3, ["contract.spec.ir"],
            "rate limited", some "boom"⟩,
          [mkCycleArtifact .product .contract "c" 5], "demo-module", 7⟩ := by
  have h := (C5_checkpoint_roundtrip
    ⟨"build x", .claudeSonnet45, .chatgpt52, ⟨some "anthropic-key", none⟩, 3⟩
    ⟨.error, 2, 6, some .architect, some .data, 1, 3, ["contract.spec.ir"],
      "rate limited", some "boom"⟩
    [mkCycleArtifact .product .contract "c" 5] "demo-module" (fun _ => none) 7
    (by decide)).1
  rw [h]
  rfl

end SpecPoC

